import Mathlib

/-!
Verification development for the `DataWarehouse` core of the ITR repository
(`ITR/data/data_warehouse.py`): production-centric scope reconciliation,
cumulative-emissions computation, exceedance-year evaluation, and scope
resolution.  Quantities are modelled as `Option ℚ` (`none` plays the role of
`NaN`/missing, which propagates through arithmetic and makes comparisons
false, as IEEE `NaN` does); year-indexed pandas objects are modelled as
explicit year/value lists.
-/

namespace ITRWarehouse

/-- A quantity magnitude: `none` models `NaN`/missing. -/
abbrev Val := Option ℚ

/-- Addition on magnitudes; any `NaN` operand poisons the result, as in
`numpy`/`pint` arithmetic. -/
def oadd : Val → Val → Val
  | some a, some b => some (a + b)
  | _, _ => none

/-- Multiplication on magnitudes with `NaN` propagation. -/
def omul : Val → Val → Val
  | some a, some b => some (a * b)
  | _, _ => none

/-- Division on magnitudes with `NaN` propagation (claims never divide by
zero, so rational division is an adequate model). -/
def odiv : Val → Val → Val
  | some a, some b => some (a / b)
  | _, _ => none

/-- Elementwise `<=` as used by `df_subject <= df_budget`: any comparison
against `NaN` is false. -/
def ole : Val → Val → Bool
  | some a, some b => a ≤ b
  | _, _ => false

/-- Models `ITR.isnan` on a quantity magnitude. -/
def valIsNaN : Val → Bool
  | none => true
  | some _ => false

/-- Python truthiness of an optional `pint` quantity: `None` is falsy, a
zero magnitude is falsy, and a `NaN` magnitude is truthy. -/
def qTruthy : Option Val → Bool
  | none => false
  | some none => true
  | some (some x) => x ≠ 0

/-- One realization of a historic series: a (year, value) pair, as in
`IEmissionRealization`/`IEIRealization`. -/
abbrev Point := Int × Val

/-- Modelled from the spec: `IEmissionRealization.add`/`IEIRealization.add`
(defined in `ITR/interfaces.py`, which is not part of the source under
review) sums two realizations point-by-point; the resulting point keeps the
primary operand's year. -/
def pointAdd (p q : Point) : Point := (p.1, oadd p.2 q.2)

/-- A projected series (`pd.Series` indexed by year). -/
abbrev Series := List (Int × Val)

/-- Value of a series at a year, if the year is present. -/
def lookupS (s : Series) (y : Int) : Option Val := (s.find? (fun p => p.1 = y)).map (·.2)

/-- Year-aligned addition of two series, modelling `pandas` `Series`
addition: the result is indexed by the union of the years, and a year
missing from either operand yields `NaN`. -/
def seriesAdd (p q : Series) : Series :=
  ((p.map (·.1)) ++ ((q.map (·.1)).filter (fun y => ¬ (y ∈ p.map (·.1))))).map
    (fun y => (y, match lookupS p y, lookupS q y with
      | some a, some b => oadd a b
      | _, _ => none))

/-- Years present in both series. -/
def commonYears (p q : Series) : List Int :=
  (p.map (·.1)).filter (fun y => y ∈ q.map (·.1))

/-- Modelled from the spec: adding two projected-target `YearSeries` whose
year ranges are disjoint signals an error (the `ValueError` that
`DataWarehouse.__init__` catches); otherwise it is the aligned sum. -/
def alignAndSum (p q : Series) : Except Unit Series :=
  if commonYears p q = [] then .error () else .ok (seriesAdd p q)

/-- Historic scope slots of `IHistoricEmissionsScopes` /
`IHistoricEIScopes`: each slot is a list of realizations, `[]` meaning
absent (falsy in Python). -/
structure HistBundle where
  S1 : List Point
  S1S2 : List Point
  S3 : List Point
  S1S2S3 : List Point
deriving DecidableEq, Repr

/-- The `historic_data` record with its emissions and intensities bundles
(each possibly `None`). -/
structure HistoricData where
  emissions : Option HistBundle
  emissions_intensities : Option HistBundle
deriving DecidableEq, Repr

/-- Projected trajectory slots (`projected_intensities`); each slot is an
optional `ICompanyEIProjections` whose projections we model directly as a
year series. -/
structure ProjBundle where
  S1 : Option Series
  S1S2 : Option Series
  S3 : Option Series
  S1S2S3 : Option Series
deriving DecidableEq, Repr

/-- Projected target slots (`projected_targets`). -/
structure TargetsBundle where
  S1 : Option Series
  S2 : Option Series
  S1S2 : Option Series
  S3 : Option Series
  S1S2S3 : Option Series
deriving DecidableEq, Repr

/-- The fields of `ICompanyData` that the production-centric fold reads and
mutates. -/
structure Company where
  ghg_s1s2 : Val
  ghg_s3 : Option Val
  historic_data : Option HistoricData
  projected_intensities : Option ProjBundle
  projected_targets : Option TargetsBundle
deriving DecidableEq, Repr

/-- Lines 66-70 of `data_warehouse.py`: if `ghg_s3` is truthy, add it to
`ghg_s1s2` unless its magnitude is `NaN`, then clear it. -/
def foldGhg (c : Company) : Company :=
  match c.ghg_s3 with
  | none => c
  | some v =>
    if qTruthy (some v) then
      { c with
        ghg_s1s2 := if valIsNaN v then c.ghg_s1s2 else oadd c.ghg_s1s2 v
        ghg_s3 := none }
    else c

/-- The inner `_adjust_historic_data` of `DataWarehouse.__init__`
(lines 72-86): returns the adjusted primary series together with a flag
recording the could-not-adjust branch (the `breakpoint(); return` at
lines 75-78, which leaves the primary series untouched). -/
def adjustHistoric (primary s3 : List Point) : List Point × Bool :=
  match s3 with
  | [] => (primary, false)
  | a :: _ =>
    match primary with
    | [] => (s3, false)
    | _ =>
      let pre := primary.filter (fun p => p.1 ≤ a.1)
      if h : pre = [] then (primary, true)
      else
        let s3data :=
          if pre.length > 1 then
            (pre.dropLast.map (fun x => (x.1, odiv (omul a.2 x.2) (pre.getLast h).2))) ++ s3
          else s3
        (primary.zipWith pointAdd s3data, false)

/-- Follows the claim's words for C4 (not the source): every primary point
strictly before the anchor year (the S3 series' first year) is rescaled by
`S3_first_value * point_value / primary_value_at_last_pre_anchor_point`,
and the rescaled prefix concatenated with S3 is summed point-by-point onto
the primary series. -/
def adjustHistoricClaimed (primary s3 : List Point) : List Point × Bool :=
  match s3 with
  | [] => (primary, false)
  | a :: _ =>
    match primary with
    | [] => (s3, false)
    | _ =>
      let pre := primary.filter (fun p => p.1 ≤ a.1)
      if h : pre = [] then (primary, true)
      else
        let scaled := (primary.filter (fun p => p.1 < a.1)).map
          (fun x => (x.1, odiv (omul a.2 x.2) (pre.getLast h).2))
        (primary.zipWith pointAdd (scaled ++ s3), false)

/-- Lines 88-101 applied to one historic bundle: when S3 is non-empty,
adjust S1 and S1S2 and clear S3; independently clear a non-empty S1S2S3.
The boolean records whether either adjustment hit the could-not-adjust
branch. -/
def foldHistBundle (b : HistBundle) : HistBundle × Bool :=
  let step1 :=
    if b.S3.isEmpty then (b, false)
    else
      let r1 := adjustHistoric b.S1 b.S3
      let r2 := adjustHistoric b.S1S2 b.S3
      ({ b with S1 := r1.1, S1S2 := r2.1, S3 := [] }, r1.2 || r2.2)
  let b1 := step1.1
  let b2 := if b1.S1S2S3.isEmpty then b1 else { b1 with S1S2S3 := [] }
  (b2, step1.2)

/-- Lines 71-101: historic emissions and intensities folding (no-op when
`historic_data` is `None`). -/
def foldHistoric (hd : Option HistoricData) : Option HistoricData × Bool × Bool :=
  match hd with
  | none => (none, false, false)
  | some d =>
    let re := match d.emissions with
      | none => (none, false)
      | some b => let r := foldHistBundle b; (some r.1, r.2)
    let ri := match d.emissions_intensities with
      | none => (none, false)
      | some b => let r := foldHistBundle b; (some r.1, r.2)
    (some { emissions := re.1, emissions_intensities := ri.1 }, re.2, ri.2)

/-- Lines 102-119: `_adjust_trajectories` applied to S1 and S1S2, then S3
and (when present) S1S2S3 cleared — all of it only when the S3 trajectory
is present, otherwise the bundle is untouched. -/
def foldTraj (pi : Option ProjBundle) : Option ProjBundle :=
  match pi with
  | none => none
  | some b =>
    match b.S3 with
    | none => some b
    | some s3 =>
      let s1 := match b.S1 with
        | none => some s3
        | some p => some (seriesAdd p s3)
      let s1s2 := match b.S1S2 with
        | none => some s3
        | some p => some (seriesAdd p s3)
      let s123 := if b.S1S2S3.isSome then none else b.S1S2S3
      some { S1 := s1, S1S2 := s1s2, S3 := none, S1S2S3 := s123 }

/-- Data-repair events logged during target folding. -/
inductive TargetEvent where
  /-- Warning at line 145: S1S2 target projections repaired as S1 + S2. -/
  | warnRepairS1S2
  /-- Warning at line 149: S2 target projections missing, treated as zero. -/
  | warnS2Zero
  /-- Error at line 157: S1+S2 targets not aligned with S3, S3 ignored. -/
  | errMisaligned
deriving DecidableEq, Repr

/-- Uncaught exceptions escaping the target-folding block. -/
inductive FoldErr where
  /-- A `ValueError` raised outside the `try` body (line 139) or inside the
  `except AttributeError` handler (line 153): not caught by the
  `except ValueError` clause, so it propagates. -/
  | valueErrorUncaught
  /-- An `AttributeError` raised inside the `except AttributeError` handler
  itself (`S1` absent at lines 146-151): propagates. -/
  | attrErrorUncaught
deriving DecidableEq, Repr

/-- Lines 120-158 applied to a present targets bundle whose follow-up
S1S2S3 clearing is handled by `foldTargets`. -/
def foldTargetsCore (t : TargetsBundle) : Except FoldErr (TargetsBundle × List TargetEvent) :=
  match t.S3 with
  | none => .ok (t, [])
  | some s3 =>
    let step1 : Except FoldErr TargetsBundle :=
      match t.S1 with
      | none => .ok t
      | some p1 =>
        match alignAndSum p1 s3 with
        | .error _ => .error .valueErrorUncaught
        | .ok r => .ok { t with S1 := some r }
    match step1 with
    | .error e => .error e
    | .ok t1 =>
      match t1.S1S2 with
      | some p12 =>
        match alignAndSum p12 s3 with
        | .ok r => .ok ({ t1 with S1S2 := some r, S3 := none }, [])
        | .error _ => .ok ({ t1 with S3 := none }, [.errMisaligned])
      | none =>
        match t1.S1 with
        | none => .error .attrErrorUncaught
        | some p1f =>
          let repaired :=
            match t1.S2 with
            | some p2 => (p1f.zipWith pointAdd p2, TargetEvent.warnRepairS1S2)
            | none => (p1f, TargetEvent.warnS2Zero)
          match alignAndSum repaired.1 s3 with
          | .error _ => .error .valueErrorUncaught
          | .ok r => .ok ({ t1 with S1S2 := some r, S3 := none }, [repaired.2])

/-- Lines 120-161: the whole target-folding step, including the S1S2S3
clearing at lines 159-161 which runs even when S3 is absent. -/
def foldTargets (pt : Option TargetsBundle) : Except FoldErr (Option TargetsBundle × List TargetEvent) :=
  match pt with
  | none => .ok (none, [])
  | some t =>
    match foldTargetsCore t with
    | .error e => .error e
    | .ok r =>
      let t2 := if r.1.S1S2S3.isSome then { r.1 with S1S2S3 := none } else r.1
      .ok (some t2, r.2)

/-- Log of a company's pass through the production-centric fold. -/
structure FoldLog where
  histEmisFailed : Bool
  histIntFailed : Bool
  targetEvents : List TargetEvent
deriving DecidableEq, Repr

/-- One company's pass through the production-centric fold of
`DataWarehouse.__init__` (lines 65-161): ghg scalars, historic bundles,
trajectory bundle, then target bundle. -/
def foldCompany (c : Company) : Except FoldErr (Company × FoldLog) :=
  let c1 := foldGhg c
  let h := foldHistoric c1.historic_data
  let c2 := { c1 with historic_data := h.1 }
  let c3 := { c2 with projected_intensities := foldTraj c2.projected_intensities }
  match foldTargets c3.projected_targets with
  | .error e => .error e
  | .ok r => .ok ({ c3 with projected_targets := r.1 },
      { histEmisFailed := h.2.1, histIntFailed := h.2.2, targetEvents := r.2 })

/-- Emission scopes (`EScope` in `ITR/interfaces.py`). -/
inductive EScope where
  | S1
  | S2
  | S3
  | S1S2
  | S1S2S3
deriving DecidableEq, Repr

/-- The benchmark's `_EI_df` index restricted to what scope resolution
reads: for each (sector, region) key, the list of scopes published. -/
structure BMIndex where
  entries : List ((String × String) × List EScope)
deriving DecidableEq, Repr

/-- Lookup of `_EI_df.loc[sector, region]` (its scope index); `none` models
the `KeyError`. -/
def lookupBM (bm : BMIndex) (sector region : String) : Option (List EScope) :=
  (bm.entries.find? (fun e => e.1 = (sector, region))).map (·.2)

/-- Lines 168-176: try the company's own region, then fall back to
`Global`. -/
def lookupWithFallback (bm : BMIndex) (sector region : String) : Option (List EScope) :=
  match lookupBM bm sector region with
  | some s => some s
  | none => lookupBM bm sector "Global"

/-- The priority order of line 181. -/
def scopePriority : List EScope := [.S1S2S3, .S1S2, .S1, .S3]

/-- The `for scope in ...: if scope in scopes: ...; break` loop of
lines 181-184. -/
def firstScopeIn (prio : List EScope) (scopes : List EScope) : Option EScope :=
  match prio with
  | [] => none
  | p :: rest => if p ∈ scopes then some p else firstScopeIn rest scopes

/-- Lines 166-186 for one company: the scope recorded in `company_scope`,
or `none` when the company lands in `missing_company_scopes`. -/
def resolveScope (bm : BMIndex) (sector region : String) : Option EScope :=
  match lookupWithFallback bm sector region with
  | none => none
  | some scopes =>
    if scopes.length = 1 then scopes.head?
    else firstScopeIn scopePriority scopes

/-- A year-by-company table (rows of `projected_ei`, `projected_production`
and the cumulative frames): a shared year-column list and per-row value
lists positionally aligned with it.  Row keys model the company x scope
index. -/
structure YTable where
  years : List Int
  rows : List (Nat × List Val)
deriving DecidableEq, Repr

/-- Row lookup by key (`df.loc[key]` / `df.T[key]`). -/
def tlookup (rows : List (Nat × List Val)) (i : Nat) : Option (List Val) :=
  (rows.find? (fun r => r.1 = i)).map (·.2)

/-- Row keys of a table. -/
def rowIds (t : YTable) : List Nat := t.rows.map (·.1)

/-- Cell of a row at a year; years absent from the table read as `NaN`
(alignment fill). -/
def cellGet (ys : List Int) (row : List Val) (y : Int) : Val :=
  (((ys.zip row).find? (fun p => p.1 = y)).map (·.2)).getD none

/-- Union of two year-column lists as produced by `pandas` alignment (for
the sorted year lists of this code the union keeps the first list's order
and appends the second's extras). -/
def unionYears (ys1 ys2 : List Int) : List Int :=
  ys1 ++ ys2.filter (fun y => ¬ (y ∈ ys1))

/-- One row of `projected_ei.T.mul(projected_production.T[...])` (line 375):
the elementwise product over the union of the year columns, `NaN` wherever
either operand lacks the year or holds `NaN`. -/
def productRow (ei prod : YTable) (rid : Nat) (uys : List Int) : List Val :=
  let eirow := (tlookup ei.rows rid).getD []
  let prow := (tlookup prod.rows rid).getD []
  uys.map (fun y => omul (cellGet ei.years eirow y) (cellGet prod.years prow y))

/-- Left-to-right running sum of a row (`cumsum(axis=1)`). -/
def cumsumRow (acc : Val) : List Val → List Val
  | [] => []
  | v :: vs => oadd acc v :: cumsumRow (oadd acc v) vs

/-- `DataWarehouse._get_cumulative_emissions` (lines 366-380): select the
production rows matching the intensity rows (`KeyError` when one is
missing), multiply with year alignment, assert the product has no missing
value, then take the running sum per row. -/
def cumulativeEmissions (ei prod : YTable) : Except Unit YTable :=
  if ¬ ((rowIds ei).all (fun i => i ∈ rowIds prod)) then .error ()
  else
    let uys := unionYears ei.years prod.years
    let prows := (rowIds ei).map (fun i => (i, productRow ei prod i uys))
    if prows.any (fun r => r.2.any (fun v => v.isNone)) then .error ()
    else .ok ⟨uys, prows.map (fun r => (r.1, cumsumRow (some 0) r.2))⟩

/-- Follows the claim's words for C2 (not the source): multiply intensity
by production over exactly the intersection of year columns present in the
intensity table, ignoring production years the intensity table lacks, and
take the running sum per row. -/
def cumulativeEmissionsClaimed (ei prod : YTable) : YTable :=
  let iys := ei.years.filter (fun y => y ∈ prod.years)
  ⟨iys, (rowIds ei).map (fun i =>
    (i, cumsumRow (some 0) (iys.map (fun y =>
      omul (cellGet ei.years ((tlookup ei.rows i).getD []) y)
           (cellGet prod.years ((tlookup prod.rows i).getD []) y)))))⟩

/-- The per-row reverse scan of lines 396-407: reverse the year columns and
take the first (furthest-out) year where subject <= budget, i.e. the
`first_valid_index` of the masked row. -/
def scanRow (ys : List Int) (srow brow : List Val) : Option Int :=
  ((ys.zip (srow.zip brow)).reverse.find? (fun t => ole t.2.1 t.2.2)).map (·.1)

/-- Lines 400-403: when a `budget_year` is given, every budget column for a
year strictly before it is replaced by the budget's value at `budget_year`;
the column access `df_budget[(budget_year, units)]` raises a `KeyError`
(modelled as `none`) when that column is needed but absent. -/
def flattenBudget (ys : List Int) (brow : List Val) (byr : Int) : Option (List Val) :=
  if (ys.filter (fun y => y < byr)).isEmpty then some brow
  else
    match lookupS (ys.zip brow) byr with
    | none => none
    | some v => some ((ys.zip brow).map (fun p => if p.1 < byr then v else p.2))

/-- The per-aligned-row loop of `_get_exceedance_year`: for each row key,
the raw `first_valid_index` result before the final base-year/sentinel
mapping. -/
def exceedanceAligned (ys : List Int) (subjRows budgRows : List (Nat × List Val))
    (budgetYear : Option Int) : List Nat → Except Unit (List (Nat × Option Int))
  | [] => .ok []
  | i :: rest =>
    let srow := (tlookup subjRows i).getD []
    let brow := (tlookup budgRows i).getD []
    let eff : Except Unit (List Val) :=
      match budgetYear with
      | none => .ok brow
      | some byr =>
        match flattenBudget ys brow byr with
        | none => .error ()
        | some e => .ok e
    match eff with
    | .error e => .error e
    | .ok effRow =>
      match exceedanceAligned ys subjRows budgRows budgetYear rest with
      | .error e => .error e
      | .ok tail => .ok ((i, scanRow ys srow effRow) :: tail)

/-- Line 413-415: the final mapping of raw scan results — `NaN`/`NA`
becomes the base year, a year at or beyond the target year becomes the
no-exceedance sentinel `NA` (`none`). -/
def exceedanceFinalMap (baseYear targetYear : Int) : Option Int → Option Int
  | none => some baseYear
  | some y => if targetYear ≤ y then none else some y

/-- `DataWarehouse._get_exceedance_year` (lines 382-416): align rows on the
budget-index/subject-index intersection (budget order), optionally flatten
the budget at `budget_year`, reverse-scan each row, append an `NA`
placeholder row for every budget row missing from the subject, and apply
the final base-year/sentinel mapping to everything.  The `error` case
models the column-equality assertion of line 399 and the flattening
`KeyError`. -/
def getExceedanceYear (subject budget : YTable) (budgetYear : Option Int)
    (baseYear targetYear : Int) : Except Unit (List (Nat × Option Int)) :=
  if subject.years ≠ budget.years then .error ()
  else
    let alignedIds := (rowIds budget).filter (fun i => i ∈ rowIds subject)
    let missingIds := (rowIds budget).filter (fun i => ¬ (i ∈ rowIds subject))
    match exceedanceAligned subject.years subject.rows budget.rows budgetYear alignedIds with
    | .error e => .error e
    | .ok rawAligned =>
      let raw := rawAligned ++ missingIds.map (fun i => (i, (none : Option Int)))
      .ok (raw.map (fun p => (p.1, exceedanceFinalMap baseYear targetYear p.2)))

/-- Lookup in an exceedance result series. -/
def rlookup (res : List (Nat × Option Int)) (i : Nat) : Option (Option Int) :=
  (res.find? (fun r => r.1 = i)).map (·.2)

/-- One intensity benchmark entry as far as `__init__` reads it. -/
structure BMEntry where
  production_centric : Bool
deriving DecidableEq, Repr

/-- The `_EI_benchmarks` attributes read by the construction-time
assertion (line 57) and the fold guard (lines 58-59). -/
structure EIBenchmarks where
  S1 : Option BMEntry
  S1S2 : Option BMEntry
deriving DecidableEq, Repr

/-- Outcome of `DataWarehouse.__init__`. -/
inductive InitError where
  /-- The assertion at line 57 failed. -/
  | assertFailed
  /-- An exception escaped the production-centric target folding. -/
  | targetFoldError
deriving DecidableEq, Repr

/-- Lines 51-54 of `__init__`: the optional `estimate_missing_data` pass
followed by `_calculate_target_projections`.  Modelled from the spec: both
passes are external per-company computations (the estimator is a caller
supplied callback; `_calculate_target_projections` lives in the company
data provider, outside this source file), so they are taken as opaque
per-company transformations applied to every company before anything
else. -/
def dwPreprocess (estimate : Option (Company → Company)) (calcTargets : Company → Company)
    (cs : List Company) : List Company :=
  (match estimate with
   | none => cs
   | some f => cs.map f).map calcTargets

/-- The per-company fold loop; stops at the first escaping exception. -/
def foldCompanies : List Company → Except FoldErr (List Company)
  | [] => .ok []
  | c :: cs =>
    match foldCompany c with
    | .error e => .error e
    | .ok r =>
      match foldCompanies cs with
      | .error e => .error e
      | .ok rest => .ok (r.1 :: rest)

/-- `DataWarehouse.__init__` (lines 51-161) up to scope resolution: the
preprocessing passes, then the assertion of line 57, then — when the S1S2
benchmark is production-centric — the per-company fold.  The returned
company list is the state when construction returns or raises (on a raise
inside the fold loop the list is approximated by the pre-fold state). -/
def dwInit (estimate : Option (Company → Company)) (calcTargets : Company → Company)
    (bm : EIBenchmarks) (cs : List Company) : List Company × Option InitError :=
  let cs2 := dwPreprocess estimate calcTargets cs
  if ¬ (bm.S1S2.isSome || bm.S1.isNone) then (cs2, some .assertFailed)
  else
    match bm.S1S2 with
    | some e =>
      if e.production_centric then
        match foldCompanies cs2 with
        | .ok cs3 => (cs3, none)
        | .error _ => (cs2, some .targetFoldError)
      else (cs2, none)
    | none => (cs2, none)

/-- A successful `find?` splits the list into a failing prefix, the hit,
and a remainder. -/
theorem find?_split {α : Type} {p : α → Bool} :
    ∀ {l : List α} {a : α}, l.find? p = some a →
      ∃ l₁ l₂, l = l₁ ++ a :: l₂ ∧ ∀ b ∈ l₁, p b = false := by
  intro l
  induction l with
  | nil => intro a h; simp [List.find?] at h
  | cons x xs ih =>
    intro a h
    by_cases hx : p x = true
    · rw [List.find?_cons_of_pos _ hx] at h
      obtain rfl : x = a := Option.some.inj h
      exact ⟨[], xs, rfl, by simp⟩
    · rw [List.find?_cons_of_neg _ (by simpa using hx)] at h
      obtain ⟨l₁, l₂, hsplit, hfail⟩ := ih h
      refine ⟨x :: l₁, l₂, by simp [hsplit], ?_⟩
      intro b hb
      rcases List.mem_cons.mp hb with hb | hb
      · subst hb; simpa using hx
      · exact hfail b hb

/-- A successful `find?` over the reversed list splits the original list
with a failing suffix after the hit. -/
theorem revFind_split {α : Type} {p : α → Bool} {l : List α} {a : α}
    (h : l.reverse.find? p = some a) :
    ∃ l₁ l₂, l = l₁ ++ a :: l₂ ∧ ∀ b ∈ l₂, p b = false := by
  obtain ⟨r₁, r₂, hsplit, hfail⟩ := find?_split h
  refine ⟨r₂.reverse, r₁.reverse, ?_, ?_⟩
  · have h2 := congrArg List.reverse hsplit
    simpa [List.reverse_append] using h2
  · intro b hb
    exact hfail b (by simpa using hb)

/-- A failing `find?` over the reversed list means every element fails. -/
theorem revFind_none {α : Type} {p : α → Bool} {l : List α}
    (h : l.reverse.find? p = none) : ∀ a ∈ l, p a = false := by
  intro a ha
  have := List.find?_eq_none.mp h a (by simpa using ha)
  simpa using this

/-- Key-preserving maps commute with key lookup. -/
theorem find?_map_keyed {κ β γ : Type} [DecidableEq κ] (h : β → γ) (i : κ) :
    ∀ (l : List (κ × β)),
      (l.map (fun p => (p.1, h p.2))).find? (fun p => p.1 = i) =
        (l.find? (fun p => p.1 = i)).map (fun p => (p.1, h p.2)) := by
  intro l
  induction l with
  | nil => rfl
  | cons x xs ih =>
    by_cases hx : x.1 = i
    · simp [List.find?_cons, hx]
    · simp [List.find?_cons, hx, ih]

/-- Looking up a key in a keyed tabulation returns its tabulated value
(the first occurrence of a duplicated key yields the same value). -/
theorem find?_keyed_tab {κ β : Type} [DecidableEq κ] (f : κ → β) (i : κ) :
    ∀ (ids : List κ), i ∈ ids →
      (ids.map (fun j => (j, f j))).find? (fun p => p.1 = i) = some (i, f i) := by
  intro ids
  induction ids with
  | nil => intro h; simp at h
  | cons x xs ih =>
    intro hmem
    by_cases hx : x = i
    · subst hx; simp [List.find?_cons]
    · have : i ∈ xs := by
        rcases List.mem_cons.mp hmem with h | h
        · exact absurd h.symm hx
        · exact h
      simp [List.find?_cons, hx, ih this]

/-- A successful series lookup puts the year among the series' years. -/
theorem lookupS_mem {s : Series} {y : Int} {a : Val} (h : lookupS s y = some a) :
    y ∈ s.map (·.1) := by
  unfold lookupS at h
  obtain ⟨pr, hpr, hval⟩ := Option.map_eq_some'.mp h
  have h1 := List.find?_some hpr
  have h2 := List.mem_of_find?_eq_some hpr
  have : pr.1 = y := by simpa using h1
  exact this ▸ List.mem_map_of_mem _ h2

/-- Aligned-sum lookup: at a year both operands define, the pandas-style
sum holds that year's `oadd`. -/
theorem lookupS_seriesAdd {p q : Series} {y : Int} {a b : Val}
    (hp : lookupS p y = some a) (hq : lookupS q y = some b) :
    lookupS (seriesAdd p q) y = some (oadd a b) := by
  have hy : y ∈ (p.map (·.1)) ++ ((q.map (·.1)).filter (fun z => ¬ (z ∈ p.map (·.1)))) :=
    List.mem_append_left _ (lookupS_mem hp)
  have hp2 : Option.map (fun x : Int × Val => x.2) (List.find? (fun r => decide (r.1 = y)) p)
      = some a := hp
  have hq2 : Option.map (fun x : Int × Val => x.2) (List.find? (fun r => decide (r.1 = y)) q)
      = some b := hq
  unfold seriesAdd lookupS
  rw [find?_keyed_tab _ y _ hy]
  simp only [Option.map_some']
  rw [hp2, hq2]

/-- Lookup distributes to the right of an append when the key is absent on
the left. -/
theorem lookupS_append_right {p : Series} (q : Series) {y : Int}
    (hy : ¬ y ∈ p.map (·.1)) : lookupS (p ++ q) y = lookupS q y := by
  unfold lookupS
  rw [List.find?_append]
  have hnone : p.find? (fun r => r.1 = y) = none := by
    rw [List.find?_eq_none]
    intro x hx
    simp only [decide_eq_true_eq]
    intro hxy
    exact hy (hxy ▸ List.mem_map_of_mem _ hx)
  simp [hnone]

/-- Positional sum of two year-aligned point lists: lookup at a shared
year adds the two values. -/
theorem lookupS_zipAdd :
    ∀ (p q : List Point), p.map (·.1) = q.map (·.1) →
      ∀ {y : Int} {a b : Val}, lookupS p y = some a → lookupS q y = some b →
        lookupS (p.zipWith pointAdd q) y = some (oadd a b) := by
  intro p
  induction p with
  | nil => intro q h y a b hp; simp [lookupS, List.find?] at hp
  | cons x xs ih =>
    intro q h y a b hp hq
    cases q with
    | nil => simp at h
    | cons z zs =>
      simp only [List.map_cons, List.cons.injEq] at h
      by_cases hxy : x.1 = y
      · have hzy : z.1 = y := h.1 ▸ hxy
        have hxa : x.2 = a := by
          unfold lookupS at hp
          rw [List.find?_cons_of_pos _ (by simpa using hxy)] at hp
          simpa using hp
        have hzb : z.2 = b := by
          unfold lookupS at hq
          rw [List.find?_cons_of_pos _ (by simpa using hzy)] at hq
          simpa using hq
        unfold lookupS
        rw [List.zipWith_cons_cons, List.find?_cons_of_pos _ (by simpa [pointAdd] using hxy)]
        simp [pointAdd, hxa, hzb]
      · have hzy : ¬ z.1 = y := h.1 ▸ hxy
        have hp2 : lookupS xs y = some a := by
          unfold lookupS at hp ⊢
          rwa [List.find?_cons_of_neg _ (by simpa using hxy)] at hp
        have hq2 : lookupS zs y = some b := by
          unfold lookupS at hq ⊢
          rwa [List.find?_cons_of_neg _ (by simpa using hzy)] at hq
        unfold lookupS
        rw [List.zipWith_cons_cons, List.find?_cons_of_neg _ (by simpa [pointAdd] using hxy)]
        exact ih zs h.2 hp2 hq2

/-- Pairwise order on years transfers to a zip against value rows. -/
theorem pairwise_zip_of_pairwise {α : Type} {R : Int → Int → Prop} :
    ∀ (ys : List Int) (l : List α), ys.Pairwise R →
      (ys.zip l).Pairwise (fun a b => R a.1 b.1) := by
  intro ys
  induction ys with
  | nil => intro l _; simp
  | cons y ys ih =>
    intro l hp
    cases l with
    | nil => simp
    | cons v vs =>
      rw [List.zip_cons_cons, List.pairwise_cons]
      obtain ⟨hhead, htail⟩ := List.pairwise_cons.mp hp
      refine ⟨?_, ih vs htail⟩
      rintro ⟨b1, b2⟩ hb
      exact hhead b1 (List.of_mem_zip hb).1

/-- Dropping the last element of a strictly year-sorted point list keeps
exactly the points whose year precedes the last point's year. -/
theorem dropLast_eq_filter_of_sorted :
    ∀ (l : List Point), l.Pairwise (fun a b => a.1 < b.1) →
      ∀ {m : Point}, l.getLast? = some m →
        l.dropLast = l.filter (fun p => p.1 < m.1) := by
  intro l
  induction l with
  | nil => intro _ m h; simp at h
  | cons x xs ih =>
    intro hp m hlast
    cases xs with
    | nil =>
      simp only [List.getLast?_singleton, Option.some.injEq] at hlast
      subst hlast
      simp [List.filter]
    | cons y ys =>
      have hlast2 : (y :: ys).getLast? = some m := by
        rwa [List.getLast?_cons_cons] at hlast
      obtain ⟨hhead, htail⟩ := List.pairwise_cons.mp hp
      have hmem : m ∈ y :: ys := by
        obtain ⟨hne, heq⟩ := List.mem_getLast?_eq_getLast (Option.mem_def.mpr hlast2)
        exact heq ▸ List.getLast_mem hne
      have hxm : x.1 < m.1 := hhead m hmem
      have hih := ih htail hlast2
      have hfilter : List.filter (fun p => decide (p.1 < m.1)) (x :: y :: ys)
          = x :: List.filter (fun p => decide (p.1 < m.1)) (y :: ys) :=
        List.filter_cons_of_pos (by simpa using hxm)
      rw [List.dropLast_cons₂, hfilter]
      exact congrArg (x :: ·) hih

/-- With no `budget_year`, the aligned-row loop is a pure tabulation of the
reverse scan over the given row keys. -/
theorem exceedanceAligned_none (ys : List Int) (sr br : List (Nat × List Val)) :
    ∀ ids : List Nat, exceedanceAligned ys sr br none ids =
      .ok (ids.map (fun j => (j, scanRow ys ((tlookup sr j).getD []) ((tlookup br j).getD [])))) := by
  intro ids
  induction ids with
  | nil => rfl
  | cons i rest ih => simp [exceedanceAligned, ih]

/-- The reverse scan of a row either finds the unique latest zipped entry
where subject <= budget (every chronologically later entry fails), or no
entry satisfies the comparison at all. -/
theorem scanRow_spec (ys : List Int) (srow brow : List Val)
    (hsort : ys.Pairwise (· < ·)) :
    (∃ t ∈ ys.zip (srow.zip brow), ole t.2.1 t.2.2 = true ∧
       (∀ u ∈ ys.zip (srow.zip brow), t.1 < u.1 → ole u.2.1 u.2.2 = false) ∧
       scanRow ys srow brow = some t.1) ∨
    ((∀ u ∈ ys.zip (srow.zip brow), ole u.2.1 u.2.2 = false) ∧
       scanRow ys srow brow = none) := by
  cases hf : (ys.zip (srow.zip brow)).reverse.find? (fun t => ole t.2.1 t.2.2) with
  | none =>
    right
    exact ⟨revFind_none hf, by simp [scanRow, hf]⟩
  | some t =>
    left
    obtain ⟨l₁, l₂, hsplit, hfail⟩ := revFind_split hf
    have hpt : ole t.2.1 t.2.2 = true :=
      List.find?_some (p := fun u : Int × Val × Val => ole u.2.1 u.2.2) hf
    have hmem : t ∈ ys.zip (srow.zip brow) := by
      rw [hsplit]; exact List.mem_append_right _ (List.mem_cons_self _ _)
    refine ⟨t, hmem, hpt, ?_, by simp [scanRow, hf]⟩
    intro u hu hlt
    have hpw : (ys.zip (srow.zip brow)).Pairwise (fun a b => a.1 < b.1) :=
      pairwise_zip_of_pairwise ys _ hsort
    rw [hsplit] at hpw hu
    obtain ⟨hpw1, hpwmid, hpwcross⟩ :=
      (List.pairwise_append.mp hpw)
    rcases List.mem_append.mp hu with hu1 | hu2
    · exact absurd (hpwcross u hu1 t (List.mem_cons_self _ _)) (by omega)
    · rcases List.mem_cons.mp hu2 with rfl | hu3
      · omega
      · exact hfail u hu3

/-- Closed form of the successful-adjustment branch of
`_adjust_historic_data`: the primary points strictly before the last
pre-anchor point are back-cast and the concatenation with S3 is summed
positionally onto the primary series. -/
theorem adjustHistoric_closed (primary : List Point) (a : Point) (rest : List Point)
    (hsort : primary.Pairwise (fun p q => p.1 < q.1))
    (lastp : Point)
    (hlast : (primary.filter (fun p => p.1 ≤ a.1)).getLast? = some lastp) :
    adjustHistoric primary (a :: rest) =
      (primary.zipWith pointAdd
        (((primary.filter (fun p => p.1 < lastp.1)).map
            (fun x => (x.1, odiv (omul a.2 x.2) lastp.2))) ++ (a :: rest)), false) := by
  have hprene : primary.filter (fun p => p.1 ≤ a.1) ≠ [] := by
    intro h; rw [h] at hlast; simp at hlast
  have hpne : primary ≠ [] := by
    intro h; rw [h] at hprene; simp at hprene
  have hlastmem : lastp ∈ primary.filter (fun p => p.1 ≤ a.1) := by
    obtain ⟨hne, heq⟩ := List.mem_getLast?_eq_getLast (Option.mem_def.mpr hlast)
    exact heq ▸ List.getLast_mem hne
  have hlastle : lastp.1 ≤ a.1 := by
    have := (List.mem_filter.mp hlastmem).2
    simpa using this
  have hpresort : (primary.filter (fun p => p.1 ≤ a.1)).Pairwise (fun p q => p.1 < q.1) :=
    List.Pairwise.filter _ hsort
  have hgl : (primary.filter (fun p => p.1 ≤ a.1)).getLast hprene = lastp := by
    have := List.getLast?_eq_getLast_of_ne_nil hprene
    rw [this] at hlast
    exact Option.some.inj hlast
  have hdrop : (primary.filter (fun p => p.1 ≤ a.1)).dropLast
      = (primary.filter (fun p => p.1 ≤ a.1)).filter (fun p => p.1 < lastp.1) :=
    dropLast_eq_filter_of_sorted _ hpresort hlast
  have hff : (primary.filter (fun p => p.1 ≤ a.1)).filter (fun p => p.1 < lastp.1)
      = primary.filter (fun p => p.1 < lastp.1) := by
    rw [List.filter_filter]
    apply List.filter_congr
    intro x _
    by_cases hx : x.1 < lastp.1
    · simp [hx, le_trans (le_of_lt hx) hlastle]
    · simp [hx]
  unfold adjustHistoric
  cases hpm : primary with
  | nil => exact absurd hpm hpne
  | cons p0 ptail =>
    rw [← hpm]
    simp only [dif_neg hprene]
    by_cases hlen : (primary.filter (fun p => p.1 ≤ a.1)).length > 1
    · rw [if_pos hlen, hgl, hdrop, hff]
    · rw [if_neg hlen]
      have hlen1 : (primary.filter (fun p => p.1 ≤ a.1)).length = 1 := by
        have := List.length_pos.mpr hprene
        omega
      obtain ⟨z, hz⟩ := List.length_eq_one.mp hlen1
      have hzl : z = lastp := by
        rw [hz] at hlast; simpa using hlast
      have hempty : primary.filter (fun p => p.1 < lastp.1) = [] := by
        rw [← hff, hz, hzl]
        simp
      rw [hempty]
      simp

/-- The ghg step only touches the two ghg scalars. -/
theorem foldGhg_rest (c : Company) :
    (foldGhg c).historic_data = c.historic_data ∧
    (foldGhg c).projected_intensities = c.projected_intensities ∧
    (foldGhg c).projected_targets = c.projected_targets := by
  unfold foldGhg
  cases c.ghg_s3 with
  | none => exact ⟨rfl, rfl, rfl⟩
  | some v =>
    by_cases h : qTruthy (some v) = true
    · simp [h]
    · simp [h]

/-- Field-level description of a successful company fold. -/
theorem foldCompany_fields {c c' : Company} {log : FoldLog}
    (h : foldCompany c = .ok (c', log)) :
    c'.ghg_s1s2 = (foldGhg c).ghg_s1s2 ∧
    c'.ghg_s3 = (foldGhg c).ghg_s3 ∧
    c'.historic_data = (foldHistoric c.historic_data).1 ∧
    c'.projected_intensities = foldTraj c.projected_intensities ∧
    ∃ evs, foldTargets c.projected_targets = .ok (c'.projected_targets, evs) := by
  obtain ⟨hh, hp, ht⟩ := foldGhg_rest c
  simp only [foldCompany, hh, hp, ht] at h
  cases hft : foldTargets c.projected_targets with
  | error e => rw [hft] at h; simp at h
  | ok r =>
    rw [hft] at h
    simp only [Except.ok.injEq, Prod.mk.injEq] at h
    obtain ⟨hc', _⟩ := h
    subst hc'
    exact ⟨rfl, rfl, rfl, rfl, r.2, by simp [hft]⟩

/-- Non-empty year intersection witnessed by a shared year. -/
theorem commonYears_ne {p q : Series} {y : Int}
    (hp : y ∈ p.map (·.1)) (hq : y ∈ q.map (·.1)) : commonYears p q ≠ [] := by
  intro h
  have hmem : y ∈ commonYears p q := List.mem_filter.mpr ⟨hp, by simpa using hq⟩
  rw [h] at hmem
  simp at hmem

/-- A successful core target fold clears S3 and leaves S1S2S3 alone. -/
theorem foldTargetsCore_clears {t t1 : TargetsBundle} {evs : List TargetEvent}
    (hok : foldTargetsCore t = .ok (t1, evs)) :
    t1.S3 = none ∧ t1.S1S2S3 = t.S1S2S3 := by
  unfold foldTargetsCore at hok
  cases h3 : t.S3 with
  | none =>
    rw [h3] at hok
    simp only [Except.ok.injEq, Prod.mk.injEq] at hok
    obtain ⟨rfl, -⟩ := hok
    exact ⟨h3, rfl⟩
  | some s3 =>
    rw [h3] at hok
    simp only [] at hok
    cases h1 : t.S1 with
    | none =>
      rw [h1] at hok
      simp only [] at hok
      cases h12 : t.S1S2 with
      | some p12 =>
        rw [h12] at hok
        simp only [] at hok
        cases ha : alignAndSum p12 s3 <;> rw [ha] at hok <;>
          simp only [Except.ok.injEq, Prod.mk.injEq] at hok <;>
          obtain ⟨rfl, -⟩ := hok <;> exact ⟨rfl, rfl⟩
      | none =>
        rw [h12, h1] at hok
        simp at hok
    | some p1 =>
      rw [h1] at hok
      simp only [] at hok
      cases ha1 : alignAndSum p1 s3 with
      | error e => rw [ha1] at hok; simp at hok
      | ok r1 =>
        rw [ha1] at hok
        simp only [] at hok
        cases h12 : t.S1S2 with
        | some p12 =>
          rw [h12] at hok
          simp only [] at hok
          cases ha : alignAndSum p12 s3 <;> rw [ha] at hok <;>
            simp only [Except.ok.injEq, Prod.mk.injEq] at hok <;>
            obtain ⟨rfl, -⟩ := hok <;> exact ⟨rfl, rfl⟩
        | none =>
          rw [h12] at hok
          simp only [] at hok
          cases h2 : t.S2 with
          | some p2 =>
            rw [h2] at hok
            simp only [] at hok
            cases ha2 : alignAndSum (r1.zipWith pointAdd p2) s3 with
            | error e => rw [ha2] at hok; simp at hok
            | ok r2 =>
              rw [ha2] at hok
              simp only [Except.ok.injEq, Prod.mk.injEq] at hok
              obtain ⟨rfl, -⟩ := hok
              exact ⟨rfl, rfl⟩
          | none =>
            rw [h2] at hok
            simp only [] at hok
            cases ha2 : alignAndSum r1 s3 with
            | error e => rw [ha2] at hok; simp at hok
            | ok r2 =>
              rw [ha2] at hok
              simp only [Except.ok.injEq, Prod.mk.injEq] at hok
              obtain ⟨rfl, -⟩ := hok
              exact ⟨rfl, rfl⟩

/-- When the original S1S2 target exists and shares a year with S3, a
successful core fold replaces it by the aligned sum with S3. -/
theorem foldTargetsCore_S1S2 {t t1 : TargetsBundle} {s3 p : Series}
    {evs : List TargetEvent}
    (h3 : t.S3 = some s3) (h12 : t.S1S2 = some p)
    (hok : foldTargetsCore t = .ok (t1, evs))
    (hcy : commonYears p s3 ≠ []) :
    t1.S1S2 = some (seriesAdd p s3) := by
  have has : alignAndSum p s3 = .ok (seriesAdd p s3) := by
    unfold alignAndSum
    rw [if_neg hcy]
  unfold foldTargetsCore at hok
  rw [h3] at hok
  simp only [] at hok
  cases h1 : t.S1 with
  | none =>
    rw [h1] at hok
    simp only [] at hok
    rw [h12] at hok
    simp only [] at hok
    rw [has] at hok
    simp only [Except.ok.injEq, Prod.mk.injEq] at hok
    obtain ⟨rfl, -⟩ := hok
    rfl
  | some p1 =>
    rw [h1] at hok
    simp only [] at hok
    cases ha1 : alignAndSum p1 s3 with
    | error e => rw [ha1] at hok; simp at hok
    | ok r1 =>
      rw [ha1] at hok
      simp only [] at hok
      rw [h12] at hok
      simp only [] at hok
      rw [has] at hok
      simp only [Except.ok.injEq, Prod.mk.injEq] at hok
      obtain ⟨rfl, -⟩ := hok
      rfl

/-- When the S1 target exists, a successful core fold implies its years
overlapped S3 and S1 became the aligned sum with S3. -/
theorem foldTargetsCore_S1 {t t1 : TargetsBundle} {s3 p1 : Series}
    {evs : List TargetEvent}
    (h3 : t.S3 = some s3) (h1 : t.S1 = some p1)
    (hok : foldTargetsCore t = .ok (t1, evs)) :
    commonYears p1 s3 ≠ [] ∧ t1.S1 = some (seriesAdd p1 s3) := by
  unfold foldTargetsCore at hok
  rw [h3] at hok
  simp only [] at hok
  rw [h1] at hok
  simp only [] at hok
  cases ha1 : alignAndSum p1 s3 with
  | error e => rw [ha1] at hok; simp at hok
  | ok r1 =>
    have hcy : commonYears p1 s3 ≠ [] := by
      intro hc
      unfold alignAndSum at ha1
      rw [if_pos hc] at ha1
      exact Except.noConfusion ha1
    have hr1 : r1 = seriesAdd p1 s3 := by
      unfold alignAndSum at ha1
      rw [if_neg hcy] at ha1
      exact (Except.ok.inj ha1).symm
    subst hr1
    rw [ha1] at hok
    simp only [] at hok
    refine ⟨hcy, ?_⟩
    cases h12 : t.S1S2 with
    | some p12 =>
      rw [h12] at hok
      simp only [] at hok
      cases ha : alignAndSum p12 s3 <;> rw [ha] at hok <;>
        simp only [Except.ok.injEq, Prod.mk.injEq] at hok <;>
        obtain ⟨rfl, -⟩ := hok <;> rfl
    | none =>
      rw [h12] at hok
      simp only [] at hok
      cases h2 : t.S2 with
      | some p2 =>
        rw [h2] at hok
        simp only [] at hok
        cases ha2 : alignAndSum ((seriesAdd p1 s3).zipWith pointAdd p2) s3 with
        | error e => rw [ha2] at hok; simp at hok
        | ok r2 =>
          rw [ha2] at hok
          simp only [Except.ok.injEq, Prod.mk.injEq] at hok
          obtain ⟨rfl, -⟩ := hok
          rfl
      | none =>
        rw [h2] at hok
        simp only [] at hok
        cases ha2 : alignAndSum (seriesAdd p1 s3) s3 with
        | error e => rw [ha2] at hok; simp at hok
        | ok r2 =>
          rw [ha2] at hok
          simp only [Except.ok.injEq, Prod.mk.injEq] at hok
          obtain ⟨rfl, -⟩ := hok
          rfl

/-- A successful full target fold leaves empty S3 and S1S2S3 slots. -/
theorem foldTargets_clears {pt pt2 : Option TargetsBundle} {evs : List TargetEvent}
    (h : foldTargets pt = .ok (pt2, evs)) :
    ∀ t2, pt2 = some t2 → t2.S3 = none ∧ t2.S1S2S3 = none := by
  intro t2 ht2
  cases pt with
  | none =>
    unfold foldTargets at h
    simp only [Except.ok.injEq, Prod.mk.injEq] at h
    obtain ⟨rfl, -⟩ := h
    exact absurd ht2 (by simp)
  | some t =>
    unfold foldTargets at h
    simp only [] at h
    cases hc : foldTargetsCore t with
    | error e => rw [hc] at h; exact Except.noConfusion h
    | ok r =>
      rw [hc] at h
      simp only [Except.ok.injEq, Prod.mk.injEq] at h
      obtain ⟨hpt2, -⟩ := h
      obtain ⟨hS3, -⟩ := foldTargetsCore_clears hc
      by_cases hs : r.1.S1S2S3.isSome
      · rw [if_pos hs] at hpt2
        rw [← hpt2] at ht2
        obtain rfl := Option.some.inj ht2
        exact ⟨hS3, rfl⟩
      · rw [if_neg hs] at hpt2
        rw [← hpt2] at ht2
        obtain rfl := Option.some.inj ht2
        exact ⟨hS3, Option.not_isSome_iff_eq_none.mp hs⟩

/-- Field-level description of the trajectory fold on a present bundle. -/
theorem foldTraj_fields {pib : Option ProjBundle} (b b2 : ProjBundle)
    (hb : pib = some b) (hb2 : foldTraj pib = some b2) :
    b2.S3 = none ∧
    (b.S3.isSome → b2.S1S2S3 = none) ∧
    (∀ s3 p, b.S3 = some s3 → b.S1S2 = some p → b2.S1S2 = some (seriesAdd p s3)) ∧
    (∀ s3 p, b.S3 = some s3 → b.S1 = some p → b2.S1 = some (seriesAdd p s3)) := by
  subst hb
  unfold foldTraj at hb2
  simp only [] at hb2
  cases h3 : b.S3 with
  | none =>
    rw [h3] at hb2
    simp only [Option.some.injEq] at hb2
    subst hb2
    exact ⟨h3, by simp [h3], by simp [h3], by simp [h3]⟩
  | some s3 =>
    rw [h3] at hb2
    simp only [Option.some.injEq] at hb2
    subst hb2
    refine ⟨rfl, fun _ => ?_, fun s3x p h3x h12 => ?_, fun s3x p h3x h1 => ?_⟩
    · by_cases hs : b.S1S2S3.isSome
      · simp [if_pos hs]
      · simp [if_neg hs, Option.not_isSome_iff_eq_none.mp hs]
    · obtain rfl := Option.some.inj h3x
      simp [h12]
    · obtain rfl := Option.some.inj h3x
      simp [h1]

/-- Field-level description of the historic-bundle fold. -/
theorem foldHistBundle_fields (b : HistBundle) :
    (foldHistBundle b).1.S3 = [] ∧
    (foldHistBundle b).1.S1S2S3 = [] ∧
    (¬ b.S3.isEmpty →
      (foldHistBundle b).1.S1 = (adjustHistoric b.S1 b.S3).1 ∧
      (foldHistBundle b).1.S1S2 = (adjustHistoric b.S1S2 b.S3).1 ∧
      (foldHistBundle b).2 = ((adjustHistoric b.S1 b.S3).2 || (adjustHistoric b.S1S2 b.S3).2)) := by
  unfold foldHistBundle
  by_cases h3 : b.S3.isEmpty = true
  · by_cases hs : b.S1S2S3.isEmpty = true
    · simp [h3, hs, List.isEmpty_iff.mp h3, List.isEmpty_iff.mp hs]
    · simp [h3, hs, List.isEmpty_iff.mp h3]
  · by_cases hs : b.S1S2S3.isEmpty = true
    · simp [h3, hs, List.isEmpty_iff.mp hs]
    · simp [h3, hs]

/-- Conservation through a successful historic adjustment: when the primary
series has a last pre-anchor point and its years from that point on are
exactly the S3 years, the adjusted series adds the S3 value at every year
the two series share. -/
theorem adjustHistoric_conserves (primary : List Point) (a : Point) (rest : List Point)
    (lastp : Point)
    (hsortP : primary.Pairwise (fun p q => p.1 < q.1))
    (hsortS : (a :: rest).Pairwise (fun p q => p.1 < q.1))
    (hlast : (primary.filter (fun p => p.1 ≤ a.1)).getLast? = some lastp)
    (halign : primary.map (·.1)
      = (primary.filter (fun p => p.1 < lastp.1)).map (·.1) ++ (a :: rest).map (·.1)) :
    ∀ {y : Int} {pv sv : Val}, lookupS primary y = some pv →
      lookupS (a :: rest) y = some sv →
      lookupS (adjustHistoric primary (a :: rest)).1 y = some (oadd pv sv) ∧
      (adjustHistoric primary (a :: rest)).2 = false := by
  intro y pv sv hpv hsv
  have hlastmem : lastp ∈ primary.filter (fun p => p.1 ≤ a.1) := by
    obtain ⟨hne, heq⟩ := List.mem_getLast?_eq_getLast (Option.mem_def.mpr hlast)
    exact heq ▸ List.getLast_mem hne
  have hlastle : lastp.1 ≤ a.1 := by
    have := (List.mem_filter.mp hlastmem).2
    simpa using this
  have hanotin : ¬ y ∈ ((primary.filter (fun p => p.1 < lastp.1)).map
      (fun x => (x.1, odiv (omul a.2 x.2) lastp.2))).map (·.1) := by
    intro hy
    rw [List.map_map] at hy
    obtain ⟨x, hxmem, hxy⟩ := List.mem_map.mp hy
    have hxlt : x.1 < lastp.1 := by
      have := (List.mem_filter.mp hxmem).2
      simpa using this
    have hyS3 : y ∈ (a :: rest).map (·.1) := lookupS_mem hsv
    have hay : a.1 ≤ y := by
      rcases List.mem_map.mp hyS3 with ⟨z, hz, hzy⟩
      rcases List.mem_cons.mp hz with rfl | hz2
      · omega
      · have := (List.pairwise_cons.mp hsortS).1 z hz2
        omega
    have hxy2 : x.1 = y := hxy
    omega
  rw [adjustHistoric_closed primary a rest hsortP lastp hlast]
  refine ⟨?_, rfl⟩
  apply lookupS_zipAdd
  · rw [List.map_append, List.map_map]
    exact halign
  · exact hpv
  · rw [lookupS_append_right _ hanotin]
    exact hsv

/-- Priority scanning agrees with `find?` over the priority list. -/
theorem firstScopeIn_eq_find (scopes : List EScope) :
    ∀ prio, firstScopeIn prio scopes = prio.find? (fun s => s ∈ scopes) := by
  intro prio
  induction prio with
  | nil => rfl
  | cons p rest ih =>
    by_cases hp : p ∈ scopes
    · simp [firstScopeIn, List.find?_cons, hp]
    · simp [firstScopeIn, List.find?_cons, hp, ih]

/-- C8: for a company whose (sector, region) is covered by the benchmark
after the Global fallback, scope resolution assigns the single published
scope when there is exactly one, and otherwise the first scope of the
priority order [S1S2S3, S1S2, S1, S3] present among the published ones. -/
theorem C8_scope_resolution (bm : BMIndex) (sector region : String)
    (scopes : List EScope)
    (h : lookupWithFallback bm sector region = some scopes) :
    resolveScope bm sector region =
      if scopes.length = 1 then scopes.head?
      else scopePriority.find? (fun s => s ∈ scopes) := by
  unfold resolveScope
  rw [h]
  simp only []
  by_cases hl : scopes.length = 1
  · rw [if_pos hl, if_pos hl]
  · rw [if_neg hl, if_neg hl, firstScopeIn_eq_find]

/-- A benchmark sector for the C8 witness. -/
def sector8 : String := "Steel"

/-- A benchmark region for the C8 witness. -/
def region8 : String := "Europe"

/-- A benchmark publishing S1, S1S2 and S1S2S3 for one (sector, region). -/
def bm8 : BMIndex := ⟨[((sector8, region8), [EScope.S1, EScope.S1S2, EScope.S1S2S3])]⟩

/-- C8 witness: the benchmark publishing exactly S1, S1S2, S1S2S3 resolves
to S1S2S3. -/
theorem C8_witness : resolveScope bm8 sector8 region8 = some EScope.S1S2S3 :=
  (C8_scope_resolution bm8 sector8 region8
    [EScope.S1, EScope.S1S2, EScope.S1S2S3] rfl).trans (by decide)

/-- C10: under the production-centric fold, a company whose base-year
ghg_s3 is present but has NaN magnitude keeps ghg_s1s2 unchanged (no mass
is transferred) while the ghg_s3 slot is still cleared. -/
theorem C10_nan_s3_cleared (c : Company) (h : c.ghg_s3 = some none) :
    (foldGhg c).ghg_s1s2 = c.ghg_s1s2 ∧ (foldGhg c).ghg_s3 = none := by
  unfold foldGhg
  rw [h]
  simp [qTruthy, valIsNaN]

/-- A company with a NaN-magnitude ghg_s3 for the C10 witness. -/
def c10w : Company :=
  { ghg_s1s2 := some 3, ghg_s3 := some none, historic_data := none,
    projected_intensities := none, projected_targets := none }

/-- C10 witness: the NaN-S3 company at concrete values. -/
theorem C10_witness :
    c10w.ghg_s3 = some none ∧
    (foldGhg c10w).ghg_s1s2 = c10w.ghg_s1s2 ∧ (foldGhg c10w).ghg_s3 = none :=
  ⟨rfl, C10_nan_s3_cleared c10w rfl⟩

/-- C7: with the production table covering every intensity row (so the row
selection cannot raise), `_get_cumulative_emissions` returns normally
exactly when the aligned intensity-times-production product has no missing
value; any missing value makes it fail. -/
theorem C7_cumulative_missing (ei prod : YTable)
    (hrows : ∀ i ∈ rowIds ei, i ∈ rowIds prod) :
    (∃ t, cumulativeEmissions ei prod = .ok t) ↔
      (∀ i ∈ rowIds ei,
        ∀ v ∈ productRow ei prod i (unionYears ei.years prod.years), v ≠ none) := by
  unfold cumulativeEmissions
  have hcond : ¬ ¬ ((rowIds ei).all (fun i => decide (i ∈ rowIds prod)) = true) := by
    intro h
    exact h (by
      rw [List.all_eq_true]
      intro i hi
      exact decide_eq_true (hrows i hi))
  rw [if_neg hcond]
  simp only []
  by_cases hany : ((rowIds ei).map
      (fun i => (i, productRow ei prod i (unionYears ei.years prod.years)))).any
        (fun r => r.2.any (fun v => v.isNone)) = true
  · rw [if_pos hany]
    constructor
    · rintro ⟨t, ht⟩
      exact absurd ht (by simp)
    · intro hall
      exfalso
      rw [List.any_eq_true] at hany
      obtain ⟨r, hr, hrv⟩ := hany
      rw [List.any_eq_true] at hrv
      obtain ⟨v, hv, hvn⟩ := hrv
      obtain ⟨i, hi, rfl⟩ := List.mem_map.mp hr
      exact hall i hi v hv (Option.isNone_iff_eq_none.mp hvn)
  · rw [if_neg hany]
    constructor
    · rintro - i hi v hv hveq
      apply hany
      rw [List.any_eq_true]
      refine ⟨(i, productRow ei prod i (unionYears ei.years prod.years)),
        List.mem_map_of_mem _ hi, ?_⟩
      rw [List.any_eq_true]
      exact ⟨v, hv, by simp [hveq]⟩
    · intro _
      exact ⟨_, rfl⟩

/-- An intensity table for the C7 witness. -/
def eiW7 : YTable := ⟨[2020, 2021], [(0, [some 1, some 2])]⟩

/-- A production table for the C7 witness. -/
def prodW7 : YTable := ⟨[2020, 2021], [(0, [some 3, some 4])]⟩

/-- C7 witness: on a gap-free input the equivalence instantiates and the
computation returns normally. -/
theorem C7_witness :
    (∃ t, cumulativeEmissions eiW7 prodW7 = .ok t) ↔
      (∀ i ∈ rowIds eiW7,
        ∀ v ∈ productRow eiW7 prodW7 i (unionYears eiW7.years prodW7.years), v ≠ none) :=
  C7_cumulative_missing eiW7 prodW7 (by decide)

/-- An intensity table with a single year column. -/
def eiC2 : YTable := ⟨[0], [(0, [some 1])]⟩

/-- A production table with one extra year the intensity table lacks. -/
def prodC2 : YTable := ⟨[0, 1], [(0, [some 2, some 3])]⟩

/-- C2 counterexample: on a production table with a year the intensity
table lacks, the code fails its no-missing-value assertion, whereas the
claim (multiplication over the intersection of years, ignoring the extra
production year) predicts the normal result `[[2]]`. -/
theorem C2_counterexample :
    cumulativeEmissions eiC2 prodC2 = .error () ∧
    cumulativeEmissionsClaimed eiC2 prodC2 = ⟨[0], [(0, [some 2])]⟩ :=
  ⟨by with_unfolding_all rfl, by with_unfolding_all rfl⟩

/-- C2 amended: when the two tables carry the same year columns and the
elementwise product has no missing value, the result is the per-row running
sum of intensity times production, in intensity row order. -/
theorem C2_amended (ei prod : YTable) (hys : ei.years = prod.years)
    (hrows : ∀ i ∈ rowIds ei, i ∈ rowIds prod)
    (hnm : ∀ i ∈ rowIds ei, ∀ v ∈ productRow ei prod i ei.years, v ≠ none) :
    cumulativeEmissions ei prod =
      .ok ⟨ei.years,
        (rowIds ei).map (fun i => (i, cumsumRow (some 0) (productRow ei prod i ei.years)))⟩ := by
  have huy : unionYears ei.years prod.years = ei.years := by
    unfold unionYears
    rw [← hys]
    have hfil : ei.years.filter (fun y => decide (¬ (y ∈ ei.years))) = [] := by
      rw [List.filter_eq_nil_iff]
      intro y hy
      simp [hy]
    rw [hfil, List.append_nil]
  unfold cumulativeEmissions
  rw [huy]
  have hcond : ¬ ¬ ((rowIds ei).all (fun i => decide (i ∈ rowIds prod)) = true) := by
    intro h
    exact h (by
      rw [List.all_eq_true]
      intro i hi
      exact decide_eq_true (hrows i hi))
  rw [if_neg hcond]
  simp only []
  have hany : ¬ (((rowIds ei).map (fun i => (i, productRow ei prod i ei.years))).any
      (fun r => r.2.any (fun v => v.isNone)) = true) := by
    intro h
    rw [List.any_eq_true] at h
    obtain ⟨r, hr, hrv⟩ := h
    rw [List.any_eq_true] at hrv
    obtain ⟨v, hv, hvn⟩ := hrv
    obtain ⟨i, hi, rfl⟩ := List.mem_map.mp hr
    exact hnm i hi v hv (Option.isNone_iff_eq_none.mp hvn)
  rw [if_neg hany]
  rw [List.map_map]
  rfl

/-- The worked 2x2 intensity table of the spec. -/
def eiW2 : YTable := ⟨[0, 1], [(0, [some 1, some 2]), (1, [some 3, some 4])]⟩

/-- The worked 2x2 production table of the spec. -/
def prodW2 : YTable := ⟨[0, 1], [(0, [some 2, some 4]), (1, [some 6, some 8])]⟩

/-- C2 witness: the worked example gives cumulative rows [2,10] and [18,50]
with final-year values [10, 50]. -/
theorem C2_witness :
    cumulativeEmissions eiW2 prodW2 =
      Except.ok ⟨[0, 1], [(0, [some 2, some 10]), (1, [some 18, some 50])]⟩ :=
  (C2_amended eiW2 prodW2 rfl (by decide)
    (of_decide_eq_true (by with_unfolding_all rfl))).trans (by with_unfolding_all rfl)

/-- The aligned-row loop keeps exactly the given row keys, in order. -/
theorem exceedanceAligned_keys (ys : List Int) (sr br : List (Nat × List Val))
    (byr : Option Int) :
    ∀ ids l, exceedanceAligned ys sr br byr ids = .ok l → l.map (·.1) = ids := by
  intro ids
  induction ids with
  | nil =>
    intro l h
    simp only [exceedanceAligned, Except.ok.injEq] at h
    rw [← h]
    rfl
  | cons i rest ih =>
    intro l h
    unfold exceedanceAligned at h
    simp only [] at h
    cases heff : (match byr with
      | none => (Except.ok ((tlookup br i).getD []) : Except Unit (List Val))
      | some byr =>
        match flattenBudget ys ((tlookup br i).getD []) byr with
        | none => Except.error ()
        | some e => Except.ok e) with
    | error e => rw [heff] at h; exact Except.noConfusion h
    | ok effRow =>
      rw [heff] at h
      simp only [] at h
      cases hrec : exceedanceAligned ys sr br byr rest with
      | error e => rw [hrec] at h; exact Except.noConfusion h
      | ok tail =>
        rw [hrec] at h
        simp only [Except.ok.injEq] at h
        rw [← h]
        simp [ih tail hrec]

/-- The subject table for the C5 counterexample. -/
def subjC5 : YTable := ⟨[2020, 2021], [(0, [some 1, some 1])]⟩

/-- The budget table for the C5 counterexample: row 1 has no subject row. -/
def budgC5 : YTable := ⟨[2020, 2021], [(0, [some 2, some 2]), (1, [some 2, some 2])]⟩

/-- C5 counterexample: the budget-only row 1 is not excluded from the
result — it appears, mapped to the base year 2019. -/
theorem C5_counterexample :
    getExceedanceYear subjC5 budgC5 none 2019 2050
      = .ok [(0, some 2021), (1, some 2019)] ∧
    rlookup [(0, some 2021), (1, some 2019)] 1 = some (some 2019) :=
  ⟨by with_unfolding_all rfl, rfl⟩

/-- C5 amended: a row present in the budget table but absent from the
subject table is retained in the exceedance result with the configured base
year (its NA placeholder is converted by the final mapping), rather than
being excluded. -/
theorem C5_amended (subject budget : YTable) (budgetYear : Option Int)
    (baseYear targetYear : Int) (res : List (Nat × Option Int)) (i : Nat)
    (hres : getExceedanceYear subject budget budgetYear baseYear targetYear = .ok res)
    (hib : i ∈ rowIds budget) (hnis : ¬ i ∈ rowIds subject) :
    rlookup res i = some (some baseYear) := by
  unfold getExceedanceYear at hres
  by_cases hys : subject.years = budget.years
  swap
  · rw [if_pos hys] at hres
    exact Except.noConfusion hres
  rw [if_neg (not_not_intro hys)] at hres
  simp only [] at hres
  cases hal : exceedanceAligned subject.years subject.rows budget.rows budgetYear
      ((rowIds budget).filter (fun j => decide (j ∈ rowIds subject))) with
  | error e => rw [hal] at hres; exact Except.noConfusion hres
  | ok rawAligned =>
    rw [hal] at hres
    simp only [Except.ok.injEq] at hres
    subst hres
    unfold rlookup
    rw [find?_map_keyed, List.find?_append]
    have hA : rawAligned.find? (fun r => r.1 = i) = none := by
      rw [List.find?_eq_none]
      intro x hx
      simp only [decide_eq_true_eq]
      intro hxi
      have hxkeys : x.1 ∈ rawAligned.map (·.1) := List.mem_map_of_mem _ hx
      rw [exceedanceAligned_keys subject.years subject.rows budget.rows budgetYear _ _ hal]
        at hxkeys
      have := (List.mem_filter.mp hxkeys).2
      rw [hxi] at this
      exact hnis (by simpa using this)
    have hM : (((rowIds budget).filter (fun j => decide (¬ (j ∈ rowIds subject)))).map
        (fun j => (j, (none : Option Int)))).find? (fun r => r.1 = i)
          = some (i, (none : Option Int)) := by
      apply find?_keyed_tab
      exact List.mem_filter.mpr ⟨hib, by simpa using hnis⟩
    rw [hA, hM]
    simp [exceedanceFinalMap]

/-- The subject table for the C5 witness (no rows at all). -/
def subjW5 : YTable := ⟨[2030], []⟩

/-- The budget table for the C5 witness (a single row, key 7). -/
def budgW5 : YTable := ⟨[2030], [(7, [some 1])]⟩

/-- C5 witness: the amended statement at a concrete missing-subject row. -/
theorem C5_witness :
    rlookup [(7, some 2025)] 7 = some (some 2025) :=
  C5_amended subjW5 budgW5 none 2025 2050 [(7, some 2025)] 7 (by with_unfolding_all rfl)
    (by decide) (by decide)

/-- An S1-only intensity benchmark (no S1S2 benchmark defined). -/
def bm9 : EIBenchmarks := { S1 := some ⟨false⟩, S1S2 := none }

/-- A target-projection pass that visibly transforms a company. -/
def calcT9 : Company → Company := fun c => { c with ghg_s1s2 := some 99 }

/-- A company before warehouse construction. -/
def c9a : Company :=
  { ghg_s1s2 := some 0, ghg_s3 := none, historic_data := none,
    projected_intensities := none, projected_targets := none }

/-- The same company after the target-projection pass. -/
def c9b : Company := { c9a with ghg_s1s2 := some 99 }

/-- C9 counterexample: with an S1-only benchmark the construction assertion
fires, but only after the preprocessing passes have already processed (and
here visibly mutated) the companies — not before any company is
processed, as the claim states. -/
theorem C9_counterexample :
    dwInit none calcT9 bm9 [c9a] = ([c9b], some InitError.assertFailed) ∧ c9b ≠ c9a :=
  ⟨by with_unfolding_all rfl, by decide⟩

/-- C9 amended: when the intensity benchmark defines S1 but no S1S2, the
construction assertion fails — after the per-company missing-data
estimation and target-projection passes (so the companies have already been
processed) but before the production-centric fold; and construction gets
past the assertion exactly when S1S2 is defined or S1 is absent. -/
theorem C9_amended (estimate : Option (Company → Company)) (calcT : Company → Company)
    (bm : EIBenchmarks) (cs : List Company) :
    (bm.S1.isSome = true → bm.S1S2 = none →
      dwInit estimate calcT bm cs = (dwPreprocess estimate calcT cs, some InitError.assertFailed)) ∧
    ((dwInit estimate calcT bm cs).2 ≠ some InitError.assertFailed ↔
      (bm.S1S2.isSome = true ∨ bm.S1 = none)) := by
  constructor
  · intro h1 h12
    have hcond : (bm.S1S2.isSome || bm.S1.isNone) = false := by
      rw [h12]
      cases hbm1 : bm.S1 with
      | none => rw [hbm1] at h1; simp at h1
      | some e => simp
    unfold dwInit
    rw [if_pos (by simp [hcond])]
  · by_cases hcond : (bm.S1S2.isSome || bm.S1.isNone) = true
    · have h2 : (dwInit estimate calcT bm cs).2 ≠ some InitError.assertFailed := by
        unfold dwInit
        rw [if_neg (by simp [hcond])]
        cases h12 : bm.S1S2 with
        | none => simp
        | some e =>
          simp only []
          by_cases hpc : e.production_centric = true
          · rw [if_pos hpc]
            cases hfc : foldCompanies (dwPreprocess estimate calcT cs) <;> simp
          · rw [if_neg hpc]
            simp
      refine ⟨fun _ => ?_, fun _ => h2⟩
      rcases Bool.or_eq_true_iff.mp hcond with hx | hx
      · exact Or.inl hx
      · exact Or.inr (Option.isNone_iff_eq_none.mp hx)
    · have houtcome : (dwInit estimate calcT bm cs).2 = some InitError.assertFailed := by
        unfold dwInit
        rw [if_pos (by simpa using hcond)]
      constructor
      · intro hne
        exact absurd houtcome hne
      · intro hdisj
        exfalso
        apply hcond
        rcases hdisj with hx | hx
        · exact Bool.or_eq_true_iff.mpr (Or.inl hx)
        · exact Bool.or_eq_true_iff.mpr (Or.inr (by simp [hx]))

/-- C9 witness: the amended assertion-failure description at concrete
inputs. -/
theorem C9_witness :
    dwInit none calcT9 bm9 [c9a] = (dwPreprocess none calcT9 [c9a], some InitError.assertFailed) :=
  (C9_amended none calcT9 bm9 [c9a]).1 rfl rfl

/-- The primary historic series for the C4 counterexample (no point at the
anchor year 2019). -/
def pC4 : List Point := [(2018, some 1), (2020, some 1)]

/-- The S3 historic series for the C4 counterexample (anchor year 2019). -/
def sC4 : List Point := [(2019, some 1), (2020, some 2)]

/-- C4 counterexample: when the primary series has no point exactly at the
anchor year, the code rescales only the points strictly before the last
pre-anchor point, not every point strictly before the anchor as the claim
states, and the two recipes give different results. -/
theorem C4_counterexample :
    adjustHistoric pC4 sC4 = ([(2018, some 2), (2020, some 3)], false) ∧
    adjustHistoricClaimed pC4 sC4 = ([(2018, some 2), (2020, some 2)], false) ∧
    adjustHistoric pC4 sC4 ≠ adjustHistoricClaimed pC4 sC4 :=
  ⟨by with_unfolding_all rfl, by with_unfolding_all rfl, by
    rw [show adjustHistoric pC4 sC4 = ([(2018, some 2), (2020, some 3)], false) from
      by with_unfolding_all rfl]
    rw [show adjustHistoricClaimed pC4 sC4 = ([(2018, some 2), (2020, some 2)], false) from
      by with_unfolding_all rfl]
    intro h
    have h4 := congrArg (fun r => r.1) h
    simp at h4⟩

/-- C4 amended: an empty primary series is replaced by S3; a primary series
with no point at or before the anchor is left untouched with the failure
flagged; otherwise every primary point strictly before the last primary
point at or before the anchor (the scaling reference) is rescaled by
S3-first-value times point-value over the reference value, and that prefix
concatenated with S3 is summed point-by-point onto the primary series. -/
theorem C4_amended (primary s3 : List Point) (a : Point) (rest : List Point)
    (hs3 : s3 = a :: rest)
    (hsort : primary.Pairwise (fun p q => p.1 < q.1)) :
    (primary = [] → adjustHistoric primary s3 = (s3, false)) ∧
    (primary ≠ [] → primary.filter (fun p => p.1 ≤ a.1) = [] →
      adjustHistoric primary s3 = (primary, true)) ∧
    (∀ lastp, (primary.filter (fun p => p.1 ≤ a.1)).getLast? = some lastp →
      adjustHistoric primary s3 =
        (primary.zipWith pointAdd
          (((primary.filter (fun p => p.1 < lastp.1)).map
              (fun x => (x.1, odiv (omul a.2 x.2) lastp.2))) ++ s3), false)) := by
  subst hs3
  refine ⟨?_, ?_, ?_⟩
  · intro h
    subst h
    rfl
  · intro hne hpre
    cases hp : primary with
    | nil => exact absurd hp hne
    | cons p0 pt =>
      subst hp
      unfold adjustHistoric
      simp only []
      rw [dif_pos hpre]
  · intro lastp hlast
    exact adjustHistoric_closed primary a rest hsort lastp hlast

/-- The primary historic series for the C4 witness. -/
def pW4 : List Point := [(2017, some 2), (2019, some 4), (2020, some 8)]

/-- The S3 historic series for the C4 witness. -/
def sW4 : List Point := [(2019, some 6), (2020, some 10)]

/-- C4 witness: the amended back-cast at concrete values
(2017 is rescaled to 6*2/4 = 3, then summed with S3 positionally). -/
theorem C4_witness :
    adjustHistoric pW4 sW4 = ([(2017, some 5), (2019, some 10), (2020, some 18)], false) :=
  (((C4_amended pW4 sW4 (2019, some 6) [(2020, some 10)] rfl (by decide)).2.2
    (2019, some 4) (by with_unfolding_all rfl)).trans (by with_unfolding_all rfl))

/-- C1: with no budget-year flattening, for every row present in both the
subject and budget cumulative tables the exceedance result is: the latest
chronological year at which subject <= budget, passed through the final
mapping (base year when no year qualifies; the NA sentinel when the
resolved year is at or beyond the target year). -/
theorem C1_exceedance (subject budget : YTable) (baseYear targetYear : Int)
    (i : Nat) (srow brow : List Val) (res : List (Nat × Option Int)) (r : Option Int)
    (hys : subject.years = budget.years)
    (hsort : subject.years.Pairwise (· < ·))
    (hs : tlookup subject.rows i = some srow)
    (hb : tlookup budget.rows i = some brow)
    (hres : getExceedanceYear subject budget none baseYear targetYear = .ok res)
    (hr : rlookup res i = some r) :
    (∃ t ∈ subject.years.zip (srow.zip brow),
        ole t.2.1 t.2.2 = true ∧
        (∀ u ∈ subject.years.zip (srow.zip brow), t.1 < u.1 → ole u.2.1 u.2.2 = false) ∧
        r = (if targetYear ≤ t.1 then none else some t.1)) ∨
    ((∀ u ∈ subject.years.zip (srow.zip brow), ole u.2.1 u.2.2 = false) ∧
        r = some baseYear) := by
  have hiS : i ∈ rowIds subject := by
    unfold tlookup at hs
    obtain ⟨row, hrow, -⟩ := Option.map_eq_some'.mp hs
    have h1 : row.1 = i := by simpa using List.find?_some hrow
    exact h1 ▸ List.mem_map_of_mem _ (List.mem_of_find?_eq_some hrow)
  have hiB : i ∈ rowIds budget := by
    unfold tlookup at hb
    obtain ⟨row, hrow, -⟩ := Option.map_eq_some'.mp hb
    have h1 : row.1 = i := by simpa using List.find?_some hrow
    exact h1 ▸ List.mem_map_of_mem _ (List.mem_of_find?_eq_some hrow)
  unfold getExceedanceYear at hres
  rw [if_neg (not_not_intro hys)] at hres
  simp only [] at hres
  rw [exceedanceAligned_none] at hres
  simp only [Except.ok.injEq] at hres
  subst hres
  unfold rlookup at hr
  rw [find?_map_keyed, List.find?_append] at hr
  have hA : (((rowIds budget).filter (fun j => decide (j ∈ rowIds subject))).map
      (fun j => (j, scanRow subject.years ((tlookup subject.rows j).getD [])
        ((tlookup budget.rows j).getD [])))).find? (fun p => p.1 = i)
      = some (i, scanRow subject.years srow brow) := by
    have htab := find?_keyed_tab
      (fun j => scanRow subject.years ((tlookup subject.rows j).getD [])
        ((tlookup budget.rows j).getD [])) i
      ((rowIds budget).filter (fun j => decide (j ∈ rowIds subject)))
      (List.mem_filter.mpr ⟨hiB, by simpa using hiS⟩)
    exact htab.trans (by simp only []; rw [hs, hb]; rfl)
  rw [hA] at hr
  simp only [Option.or, Option.map_some'] at hr
  have hrval : r = exceedanceFinalMap baseYear targetYear (scanRow subject.years srow brow) :=
    (Option.some.inj hr).symm ▸ rfl
  rcases scanRow_spec subject.years srow brow hsort with
    ⟨t, hmem, hole, hlater, hscan⟩ | ⟨hall, hscan⟩
  · left
    refine ⟨t, hmem, hole, hlater, ?_⟩
    rw [hrval, hscan]
    simp [exceedanceFinalMap]
  · right
    refine ⟨hall, ?_⟩
    rw [hrval, hscan]
    rfl

/-- The subject table for the C1 witness. -/
def subjW1 : YTable := ⟨[2020, 2021, 2022], [(0, [some 10, some 20, some 30])]⟩

/-- The budget table for the C1 witness. -/
def budgW1 : YTable := ⟨[2020, 2021, 2022], [(0, [some 15, some 18, some 40])]⟩

/-- C1 witness: the theorem instantiated on a row whose latest compliant
year is 2022 (subject exceeds the budget only in 2021). -/
theorem C1_witness :
    (∃ t ∈ ([2020, 2021, 2022] : List Int).zip
        (([some 10, some 20, some 30] : List Val).zip [some 15, some 18, some 40]),
        ole t.2.1 t.2.2 = true ∧
        (∀ u ∈ ([2020, 2021, 2022] : List Int).zip
            (([some 10, some 20, some 30] : List Val).zip [some 15, some 18, some 40]),
          t.1 < u.1 → ole u.2.1 u.2.2 = false) ∧
        (some 2022 : Option Int) = (if (2050 : Int) ≤ t.1 then none else some t.1)) ∨
    ((∀ u ∈ ([2020, 2021, 2022] : List Int).zip
        (([some 10, some 20, some 30] : List Val).zip [some 15, some 18, some 40]),
        ole u.2.1 u.2.2 = false) ∧ (some 2022 : Option Int) = some 2019) :=
  C1_exceedance subjW1 budgW1 2019 2050 0 [some 10, some 20, some 30]
    [some 15, some 18, some 40] [(0, some 2022)] (some 2022)
    rfl (by decide) rfl rfl (by with_unfolding_all rfl) rfl

/-- A targets bundle with S1S2 absent, S2 present, and S3 aligned. -/
def tC6x : TargetsBundle :=
  { S1 := some [(2025, some 1)], S2 := some [(2025, some 10)], S1S2 := none,
    S3 := some [(2025, some 100)], S1S2S3 := none }

/-- C6 counterexample: because S1 already absorbed S3 at line 139 before
the repair at lines 146-147 reads it, the synthesized S1S2 is
(S1+S3)+S2 and folding S3 into it again yields 1+100+10+100 = 211 at the
shared year — not the 1+10+100 = 111 that the claim's "S1S2 = S1 + S2
then fold S3 into it" predicts. -/
theorem C6_counterexample :
    (foldTargetsCore tC6x).map (fun rr => (rr.1.S1S2, rr.2))
      = Except.ok (some [(2025, some 211)], [TargetEvent.warnRepairS1S2]) ∧
    seriesAdd ([(2025, some 1)].zipWith pointAdd [(2025, some 10)]) [(2025, some 100)]
      = [(2025, some 111)] ∧
    ¬ ((211 : ℚ) = 111) :=
  ⟨by with_unfolding_all rfl, by with_unfolding_all rfl, by norm_num⟩

/-- C6 amended: when the S1S2 target series is absent (and S1, which the
repair needs, is present and overlaps S3), S1 has already absorbed S3, so:
with an S2 target the repair synthesizes S1S2 = (S1+S3) + S2 and folds S3
into it once more (warning logged); without an S2 target it uses (S1+S3)
directly and folds S3 in again (warning logged); and if the repaired
series' years are disjoint from S3's, the resulting error is raised inside
the `except AttributeError` handler and propagates uncaught — the fold is
not skipped and the company does not proceed. -/
theorem C6_amended (t : TargetsBundle) (s3 p1 : Series)
    (h3 : t.S3 = some s3) (h12 : t.S1S2 = none) (h1 : t.S1 = some p1)
    (hal : commonYears p1 s3 ≠ []) :
    (∀ p2, t.S2 = some p2 →
      (commonYears ((seriesAdd p1 s3).zipWith pointAdd p2) s3 ≠ [] →
        foldTargetsCore t = .ok
          ({ t with S1 := some (seriesAdd p1 s3),
                    S1S2 := some (seriesAdd ((seriesAdd p1 s3).zipWith pointAdd p2) s3),
                    S3 := none }, [TargetEvent.warnRepairS1S2])) ∧
      (commonYears ((seriesAdd p1 s3).zipWith pointAdd p2) s3 = [] →
        foldTargetsCore t = .error FoldErr.valueErrorUncaught)) ∧
    (t.S2 = none →
      (commonYears (seriesAdd p1 s3) s3 ≠ [] →
        foldTargetsCore t = .ok
          ({ t with S1 := some (seriesAdd p1 s3),
                    S1S2 := some (seriesAdd (seriesAdd p1 s3) s3),
                    S3 := none }, [TargetEvent.warnS2Zero])) ∧
      (commonYears (seriesAdd p1 s3) s3 = [] →
        foldTargetsCore t = .error FoldErr.valueErrorUncaught)) := by
  have has1 : alignAndSum p1 s3 = .ok (seriesAdd p1 s3) := by
    unfold alignAndSum
    rw [if_neg hal]
  constructor
  · intro p2 h2
    constructor
    · intro hcy
      unfold foldTargetsCore
      rw [h3]
      simp only []
      rw [h1]
      simp only []
      rw [has1]
      simp only []
      rw [h12]
      simp only []
      rw [h2]
      simp only []
      rw [show alignAndSum ((seriesAdd p1 s3).zipWith pointAdd p2) s3
          = .ok (seriesAdd ((seriesAdd p1 s3).zipWith pointAdd p2) s3) from by
        unfold alignAndSum
        rw [if_neg hcy]]
    · intro hcy
      unfold foldTargetsCore
      rw [h3]
      simp only []
      rw [h1]
      simp only []
      rw [has1]
      simp only []
      rw [h12]
      simp only []
      rw [h2]
      simp only []
      rw [show alignAndSum ((seriesAdd p1 s3).zipWith pointAdd p2) s3 = .error () from by
        unfold alignAndSum
        rw [if_pos hcy]]
  · intro h2
    constructor
    · intro hcy
      unfold foldTargetsCore
      rw [h3]
      simp only []
      rw [h1]
      simp only []
      rw [has1]
      simp only []
      rw [h12]
      simp only []
      rw [h2]
      simp only []
      rw [show alignAndSum (seriesAdd p1 s3) s3
          = .ok (seriesAdd (seriesAdd p1 s3) s3) from by
        unfold alignAndSum
        rw [if_neg hcy]]
    · intro hcy
      unfold foldTargetsCore
      rw [h3]
      simp only []
      rw [h1]
      simp only []
      rw [has1]
      simp only []
      rw [h12]
      simp only []
      rw [h2]
      simp only []
      rw [show alignAndSum (seriesAdd p1 s3) s3 = .error () from by
        unfold alignAndSum
        rw [if_pos hcy]]

/-- C6 witness: the amended repaired-with-S2 description at the concrete
bundle, showing the double-counted 211. -/
theorem C6_witness :
    foldTargetsCore tC6x = Except.ok
      ({ S1 := some [(2025, some 101)], S2 := some [(2025, some 10)],
         S1S2 := some [(2025, some 211)], S3 := none, S1S2S3 := none },
       [TargetEvent.warnRepairS1S2]) := by
  have h := ((C6_amended tC6x [(2025, some 100)] [(2025, some 1)] rfl rfl rfl
      (by decide)).1 [(2025, some 10)] rfl).1
      (of_decide_eq_true (by with_unfolding_all rfl))
  exact h.trans (by with_unfolding_all rfl)

/-- Closed form of the historic fold on a present record. -/
theorem foldHistoric_some (d : HistoricData) :
    (foldHistoric (some d)).1 = some
      { emissions := d.emissions.map (fun b => (foldHistBundle b).1),
        emissions_intensities :=
          d.emissions_intensities.map (fun b => (foldHistBundle b).1) } := by
  unfold foldHistoric
  cases he : d.emissions <;> cases hi : d.emissions_intensities <;> simp [he, hi]

/-- A successful full target fold on a present bundle factors through the
core fold, preserving the S1, S1S2 and S3 slots of its result. -/
theorem foldTargets_some {t : TargetsBundle} {pt2 : Option TargetsBundle}
    {evs : List TargetEvent}
    (h : foldTargets (some t) = .ok (pt2, evs)) :
    ∃ t1, foldTargetsCore t = .ok (t1, evs) ∧
      ∃ t2, pt2 = some t2 ∧ t2.S1 = t1.S1 ∧ t2.S1S2 = t1.S1S2 ∧ t2.S3 = t1.S3 := by
  unfold foldTargets at h
  simp only [] at h
  cases hc : foldTargetsCore t with
  | error e => rw [hc] at h; exact Except.noConfusion h
  | ok r =>
    obtain ⟨t1, evs1⟩ := r
    rw [hc] at h
    simp only [Except.ok.injEq, Prod.mk.injEq] at h
    obtain ⟨hpt, hevs⟩ := h
    refine ⟨t1, by simp only [hc, hevs], ?_⟩
    by_cases hso : t1.S1S2S3.isSome = true
    · rw [if_pos hso] at hpt
      exact ⟨_, hpt.symm, rfl, rfl, rfl⟩
    · rw [if_neg hso] at hpt
      exact ⟨t1, hpt.symm, rfl, rfl, rfl⟩

/-- C3 amended: for a company the production-centric fold completes on,
(a) trajectory folding adds S3 onto a present S1/S1S2 at every shared year;
(b) target folding adds S3 onto an originally-present S1/S1S2 at every
shared year; (c) historic folding adds S3 onto S1/S1S2 at every shared year
provided the primary has a point at or before the anchor and its years from
the last such point onward are exactly the S3 years; and afterwards the S3
slot is empty everywhere, while S1S2S3 is empty in the historic and target
bundles unconditionally but in the trajectory bundle only when its S3 slot
was non-empty. -/
theorem C3_amended (c c2 : Company) (log : FoldLog)
    (hok : foldCompany c = .ok (c2, log)) :
    (∀ b s3 p y pv sv, c.projected_intensities = some b → b.S3 = some s3 →
      b.S1S2 = some p → lookupS p y = some pv → lookupS s3 y = some sv →
      ∃ b2, c2.projected_intensities = some b2 ∧
        ∃ q, b2.S1S2 = some q ∧ lookupS q y = some (oadd pv sv)) ∧
    (∀ b s3 p y pv sv, c.projected_intensities = some b → b.S3 = some s3 →
      b.S1 = some p → lookupS p y = some pv → lookupS s3 y = some sv →
      ∃ b2, c2.projected_intensities = some b2 ∧
        ∃ q, b2.S1 = some q ∧ lookupS q y = some (oadd pv sv)) ∧
    (∀ t s3 p y pv sv, c.projected_targets = some t → t.S3 = some s3 →
      t.S1S2 = some p → lookupS p y = some pv → lookupS s3 y = some sv →
      ∃ t2, c2.projected_targets = some t2 ∧
        ∃ q, t2.S1S2 = some q ∧ lookupS q y = some (oadd pv sv)) ∧
    (∀ t s3 p y pv sv, c.projected_targets = some t → t.S3 = some s3 →
      t.S1 = some p → lookupS p y = some pv → lookupS s3 y = some sv →
      ∃ t2, c2.projected_targets = some t2 ∧
        ∃ q, t2.S1 = some q ∧ lookupS q y = some (oadd pv sv)) ∧
    (∀ d b a rest lastp y pv sv, c.historic_data = some d → d.emissions = some b →
      b.S3 = a :: rest →
      b.S1S2.Pairwise (fun u v => u.1 < v.1) →
      (a :: rest).Pairwise (fun u v => u.1 < v.1) →
      (b.S1S2.filter (fun u => u.1 ≤ a.1)).getLast? = some lastp →
      b.S1S2.map (·.1)
        = (b.S1S2.filter (fun u => u.1 < lastp.1)).map (·.1) ++ (a :: rest).map (·.1) →
      lookupS b.S1S2 y = some pv → lookupS (a :: rest) y = some sv →
      ∃ d2 b2, c2.historic_data = some d2 ∧ d2.emissions = some b2 ∧
        lookupS b2.S1S2 y = some (oadd pv sv)) ∧
    (∀ d b a rest lastp y pv sv, c.historic_data = some d → d.emissions = some b →
      b.S3 = a :: rest →
      b.S1.Pairwise (fun u v => u.1 < v.1) →
      (a :: rest).Pairwise (fun u v => u.1 < v.1) →
      (b.S1.filter (fun u => u.1 ≤ a.1)).getLast? = some lastp →
      b.S1.map (·.1)
        = (b.S1.filter (fun u => u.1 < lastp.1)).map (·.1) ++ (a :: rest).map (·.1) →
      lookupS b.S1 y = some pv → lookupS (a :: rest) y = some sv →
      ∃ d2 b2, c2.historic_data = some d2 ∧ d2.emissions = some b2 ∧
        lookupS b2.S1 y = some (oadd pv sv)) ∧
    (∀ d2 b2, c2.historic_data = some d2 →
      (d2.emissions = some b2 ∨ d2.emissions_intensities = some b2) →
      b2.S3 = [] ∧ b2.S1S2S3 = []) ∧
    (∀ b b2, c.projected_intensities = some b → c2.projected_intensities = some b2 →
      b2.S3 = none ∧ (b.S3.isSome → b2.S1S2S3 = none)) ∧
    (∀ t2, c2.projected_targets = some t2 → t2.S3 = none ∧ t2.S1S2S3 = none) := by
  obtain ⟨-, -, hhist, htraj, tevs, htgt⟩ := foldCompany_fields hok
  refine ⟨?_, ?_, ?_, ?_, ?_, ?_, ?_, ?_, ?_⟩
  · intro b s3 p y pv sv hb hs3 h12 hpv hsv
    cases hb2 : foldTraj (some b) with
    | none =>
      exfalso
      unfold foldTraj at hb2
      simp only [] at hb2
      cases h3x : b.S3 <;> rw [h3x] at hb2 <;> simp at hb2
    | some b2 =>
      obtain ⟨-, -, hcons, -⟩ := foldTraj_fields b b2 rfl hb2
      exact ⟨b2, by rw [htraj, hb, hb2], seriesAdd p s3, hcons s3 p hs3 h12,
        lookupS_seriesAdd hpv hsv⟩
  · intro b s3 p y pv sv hb hs3 h1 hpv hsv
    cases hb2 : foldTraj (some b) with
    | none =>
      exfalso
      unfold foldTraj at hb2
      simp only [] at hb2
      cases h3x : b.S3 <;> rw [h3x] at hb2 <;> simp at hb2
    | some b2 =>
      obtain ⟨-, -, -, hcons⟩ := foldTraj_fields b b2 rfl hb2
      exact ⟨b2, by rw [htraj, hb, hb2], seriesAdd p s3, hcons s3 p hs3 h1,
        lookupS_seriesAdd hpv hsv⟩
  · intro t s3 p y pv sv ht hs3 h12 hpv hsv
    have htgt2 := htgt
    rw [ht] at htgt2
    obtain ⟨t1, hc, t2, hpt2, -, hS12eq, -⟩ := foldTargets_some htgt2
    have hcy : commonYears p s3 ≠ [] := commonYears_ne (lookupS_mem hpv) (lookupS_mem hsv)
    have hval := foldTargetsCore_S1S2 hs3 h12 hc hcy
    exact ⟨t2, hpt2, seriesAdd p s3, by rw [hS12eq, hval], lookupS_seriesAdd hpv hsv⟩
  · intro t s3 p y pv sv ht hs3 h1 hpv hsv
    have htgt2 := htgt
    rw [ht] at htgt2
    obtain ⟨t1, hc, t2, hpt2, hS1eq, -, -⟩ := foldTargets_some htgt2
    obtain ⟨-, hval⟩ := foldTargetsCore_S1 hs3 h1 hc
    exact ⟨t2, hpt2, seriesAdd p s3, by rw [hS1eq, hval], lookupS_seriesAdd hpv hsv⟩
  · intro d b a rest lastp y pv sv hd hde hs3 hsortP hsortS hlast halign hpv hsv
    have hc2 : c2.historic_data = some
        { emissions := some (foldHistBundle b).1,
          emissions_intensities :=
            d.emissions_intensities.map (fun bb => (foldHistBundle bb).1) } := by
      rw [hhist, hd, foldHistoric_some, hde]
      rfl
    have hne : ¬ b.S3.isEmpty = true := by rw [hs3]; simp
    obtain ⟨-, -, hflds⟩ := foldHistBundle_fields b
    obtain ⟨-, h12eq, -⟩ := hflds hne
    refine ⟨_, (foldHistBundle b).1, hc2, rfl, ?_⟩
    rw [h12eq, hs3]
    exact (adjustHistoric_conserves b.S1S2 a rest lastp hsortP hsortS hlast halign hpv hsv).1
  · intro d b a rest lastp y pv sv hd hde hs3 hsortP hsortS hlast halign hpv hsv
    have hc2 : c2.historic_data = some
        { emissions := some (foldHistBundle b).1,
          emissions_intensities :=
            d.emissions_intensities.map (fun bb => (foldHistBundle bb).1) } := by
      rw [hhist, hd, foldHistoric_some, hde]
      rfl
    have hne : ¬ b.S3.isEmpty = true := by rw [hs3]; simp
    obtain ⟨-, -, hflds⟩ := foldHistBundle_fields b
    obtain ⟨h1eq, -, -⟩ := hflds hne
    refine ⟨_, (foldHistBundle b).1, hc2, rfl, ?_⟩
    rw [h1eq, hs3]
    exact (adjustHistoric_conserves b.S1 a rest lastp hsortP hsortS hlast halign hpv hsv).1
  · intro d2 b2 hd2 hde2
    rw [hhist] at hd2
    cases hcd : c.historic_data with
    | none =>
      rw [hcd] at hd2
      simp [foldHistoric] at hd2
    | some d =>
      rw [hcd, foldHistoric_some] at hd2
      obtain rfl := Option.some.inj hd2
      rcases hde2 with he | he
      · obtain ⟨b0, -, hfb⟩ := Option.map_eq_some'.mp he
        obtain ⟨hS3, hS123, -⟩ := foldHistBundle_fields b0
        rw [← hfb]
        exact ⟨hS3, hS123⟩
      · obtain ⟨b0, -, hfb⟩ := Option.map_eq_some'.mp he
        obtain ⟨hS3, hS123, -⟩ := foldHistBundle_fields b0
        rw [← hfb]
        exact ⟨hS3, hS123⟩
  · intro b b2 hb hb2
    rw [htraj, hb] at hb2
    obtain ⟨h1, h2, -, -⟩ := foldTraj_fields b b2 rfl hb2
    exact ⟨h1, h2⟩
  · intro t2 ht2
    exact foldTargets_clears htgt t2 ht2

/-- A company whose historic S1S2 has no point at or before the S3 anchor,
and whose trajectory bundle has S1S2S3 but no S3. -/
def cC3 : Company :=
  { ghg_s1s2 := some 0, ghg_s3 := none,
    historic_data := some
      { emissions := some
          { S1 := [], S1S2 := [(2020, some 5)],
            S3 := [(2019, some 1), (2020, some 2)], S1S2S3 := [] },
        emissions_intensities := none },
    projected_intensities := some
      { S1 := none, S1S2 := none, S3 := none, S1S2S3 := some [(2020, some 7)] },
    projected_targets := none }

/-- The fold output for `cC3`. -/
def cC3r : Company :=
  { ghg_s1s2 := some 0, ghg_s3 := none,
    historic_data := some
      { emissions := some
          { S1 := [(2019, some 1), (2020, some 2)], S1S2 := [(2020, some 5)],
            S3 := [], S1S2S3 := [] },
        emissions_intensities := none },
    projected_intensities := some
      { S1 := none, S1S2 := none, S3 := none, S1S2S3 := some [(2020, some 7)] },
    projected_targets := none }

/-- C3 counterexample: the fold completes, yet at the aligned year 2020 the
historic S1S2 value is unchanged (5, not 5 + 2 — the no-anchor branch
skipped the fold and only flagged it), and the trajectory S1S2S3 slot is
still populated afterwards because the trajectory S3 slot was empty. -/
theorem C3_counterexample :
    foldCompany cC3 = Except.ok (cC3r, ⟨true, false, []⟩) ∧
    lookupS [(2020, some 5)] 2020 = some (some 5) ∧
    lookupS [(2019, some 1), (2020, some 2)] 2020 = some (some 2) ∧
    oadd (some 5) (some 2) = some 7 ∧
    ¬ ((5 : ℚ) = 7) ∧
    cC3r.projected_intensities = some
      { S1 := none, S1S2 := none, S3 := none, S1S2S3 := some [(2020, some 7)] } :=
  ⟨by with_unfolding_all rfl, rfl, rfl, by with_unfolding_all rfl, by norm_num, rfl⟩

/-- A fully aligned company for the C3 witness. -/
def cW3 : Company :=
  { ghg_s1s2 := some 1, ghg_s3 := some (some 2),
    historic_data := some
      { emissions := some
          { S1 := [(2019, some 1), (2020, some 2)], S1S2 := [(2019, some 3), (2020, some 4)],
            S3 := [(2019, some 5), (2020, some 6)], S1S2S3 := [] },
        emissions_intensities := none },
    projected_intensities := some
      { S1 := some [(2020, some 1)], S1S2 := some [(2020, some 2)],
        S3 := some [(2020, some 3)], S1S2S3 := none },
    projected_targets := some
      { S1 := some [(2020, some 1)], S2 := none, S1S2 := some [(2020, some 4)],
        S3 := some [(2020, some 5)], S1S2S3 := none } }

/-- The fold output for `cW3`. -/
def cW3r : Company :=
  { ghg_s1s2 := some 3, ghg_s3 := none,
    historic_data := some
      { emissions := some
          { S1 := [(2019, some 6), (2020, some 8)], S1S2 := [(2019, some 8), (2020, some 10)],
            S3 := [], S1S2S3 := [] },
        emissions_intensities := none },
    projected_intensities := some
      { S1 := some [(2020, some 4)], S1S2 := some [(2020, some 5)],
        S3 := none, S1S2S3 := none },
    projected_targets := some
      { S1 := some [(2020, some 6)], S2 := none, S1S2 := some [(2020, some 9)],
        S3 := none, S1S2S3 := none } }

/-- C3 witness: target-fold conservation instantiated — the folded S1S2
target at year 2020 equals 4 + 5. -/
theorem C3_witness :
    ∃ t2, cW3r.projected_targets = some t2 ∧
      ∃ q, t2.S1S2 = some q ∧ lookupS q 2020 = some (oadd (some 4) (some 5)) :=
  (C3_amended cW3 cW3r ⟨false, false, []⟩ (by with_unfolding_all rfl)).2.2.1
    { S1 := some [(2020, some 1)], S2 := none, S1S2 := some [(2020, some 4)],
      S3 := some [(2020, some 5)], S1S2S3 := none }
    [(2020, some 5)] [(2020, some 4)] 2020 (some 4) (some 5) rfl rfl rfl rfl rfl

end ITRWarehouse
